import Mathlib

/-!
Shallow embedding of the Neutronium Leaderboard session-lifecycle core.

The store is modelled as lists of rows mirroring the SQL schema
(players, game_boxes, sessions, session_players, progress_journal),
plus a fresh-id counter standing in for UUID generation.  Timestamps
are modelled as booleans or dropped where no claim depends on them.
The database trigger update_progress_journal (AFTER UPDATE ON sessions)
is modelled inside applySessionUpdate, so every code path that updates a
session row fires it exactly as the schema declares.
-/

namespace Neutronium

/-- Session status enum from the schema CHECK constraint. -/
inductive SessionStatus where
  | active
  | pending_end
  | completed
  | abandoned
deriving Repr, DecidableEq

/-- Row of the players table (timestamps and email omitted; no claim reads them). -/
structure Player where
  id : Nat
  display_name : String
  is_guest : Bool
deriving Repr, DecidableEq

/-- Row of the sessions table. `ended` models ended_at being set. -/
structure Session where
  id : Nat
  box_id : String
  universe_level : Nat
  status : SessionStatus
  host_player_id : Nat
  ended : Bool
deriving Repr, DecidableEq

/-- Row of the session_players table (joined_at omitted). -/
structure SessionPlayer where
  session_id : Nat
  player_id : Nat
  race : Option String
  starting_nn : Int
  final_nn : Option Int
  voted_end : Bool
deriving Repr, DecidableEq

/-- Row of the progress_journal table (achieved_at omitted). -/
structure JournalEntry where
  player_id : Nat
  universe_level : Nat
  best_nn : Int
  session_id : Option Nat
deriving Repr, DecidableEq

/-- The persistent store: one list per table, plus a fresh-id counter. -/
structure Store where
  players : List Player
  game_boxes : List String
  sessions : List Session
  session_players : List SessionPlayer
  progress_journal : List JournalEntry
  next_id : Nat
deriving Repr, DecidableEq

/-- Math.max over a list; the empty case is guarded at every call site. -/
def listMax : List Nat → Nat
  | [] => 0
  | h :: t => t.foldl Nat.max h

/-- Math.min over a list; the empty case is guarded at every call site. -/
def listMin : List Nat → Nat
  | [] => 0
  | h :: t => t.foldl Nat.min h

/-- JS `x || d` on an optional number: null/undefined and 0 are falsy. -/
def jsOrNat (x : Option Nat) (d : Nat) : Nat :=
  match x with
  | none => d
  | some v => if v = 0 then d else v

/-- Point lookup players.eq(id).single(). -/
def findPlayer (st : Store) (pid : Nat) : Option Player :=
  st.players.find? (fun p => p.id == pid)

/-- Point lookup sessions.eq(id).single(). -/
def findSession (st : Store) (sid : Nat) : Option Session :=
  st.sessions.find? (fun s => s.id == sid)

/-- Filtered query session_players.eq(session_id). -/
def sessionPlayersOf (st : Store) (sid : Nat) : List SessionPlayer :=
  st.session_players.filter (fun sp => sp.session_id == sid)

/-- Point lookup session_players.eq(session_id).eq(player_id).single(). -/
def findSessionPlayer (st : Store) (sid pid : Nat) : Option SessionPlayer :=
  st.session_players.find? (fun sp => sp.session_id == sid && sp.player_id == pid)

/-- progress_journal.select(universe_level).eq(player_id). -/
def journalLevels (st : Store) (pid : Nat) : List Nat :=
  (st.progress_journal.filter (fun e => e.player_id == pid)).map (·.universe_level)

/-- Point lookup progress_journal.eq(player_id).eq(universe_level).single(). -/
def findJournal (st : Store) (pid lvl : Nat) : Option JournalEntry :=
  st.progress_journal.find? (fun e => e.player_id == pid && e.universe_level == lvl)

/-- Result of the players.select(is_guest).single() query: errors when the
row is absent, otherwise yields the is_guest flag. -/
def playerQuery (st : Store) (pid : Nat) : Except Unit Bool :=
  match findPlayer st pid with
  | none => Except.error ()
  | some p => Except.ok p.is_guest

/-- getPlayerMaxLevel from join.js / the recalculate-level handler, with its
two store queries abstracted as Except results so that the error branches
(lines returning 1 on playerError / progressError) are represented. -/
def getPlayerMaxLevelCore (playerRes : Except Unit Bool)
    (progressRes : Except Unit (List Nat)) : Nat :=
  match playerRes with
  | Except.error _ => 1
  | Except.ok isGuest =>
    if isGuest then 1
    else
      match progressRes with
      | Except.error _ => 1
      | Except.ok levels =>
        if levels.isEmpty then 1
        else Nat.min (listMax levels + 1) 13

/-- getPlayerMaxLevel against a store whose queries succeed. -/
def getPlayerMaxLevel (st : Store) (pid : Nat) : Nat :=
  getPlayerMaxLevelCore (playerQuery st pid) (Except.ok (journalLevels st pid))

/-- The minimum of the max-unlocked levels over a session's current members. -/
def sessionMinLevel (st : Store) (sid : Nat) : Nat :=
  listMin ((sessionPlayersOf st sid).map (fun sp => getPlayerMaxLevel st sp.player_id))

/-- The fixed color enum shared by the handlers' validation blocks. -/
def validColors : List String := ["gray", "pink", "purple", "green"]

/-- JS `color && !validColors.includes(color)`: true when a color is present
and invalid. -/
def colorCheckFails (c : Option String) : Bool :=
  match c with
  | none => false
  | some col => !(validColors.contains col)

/-- players.insert({display_name, is_guest: true}).select().single(). -/
def insertGuestPlayer (st : Store) (name : String) : Store × Player :=
  let p : Player := ⟨st.next_id, name, true⟩
  ({ st with players := st.players ++ [p], next_id := st.next_id + 1 }, p)

/-- The shared get-or-create-player block of create.js and join.js: use the
requested id when it resolves to an existing row, else create a guest. -/
def resolvePlayer (st : Store) (playerId : Option Nat) (name : String) :
    Store × Player :=
  match playerId with
  | some pid =>
    match findPlayer st pid with
    | some p => (st, p)
    | none => insertGuestPlayer st name
  | none => insertGuestPlayer st name

/-- One row of the trigger's INSERT ... ON CONFLICT (player_id, universe_level)
DO UPDATE SET best_nn = GREATEST(best_nn, EXCLUDED.best_nn), session_id kept
unless the new score is strictly better. -/
def triggerUpsert (j : List JournalEntry) (pid lvl : Nat) (score : Int)
    (sid : Nat) : List JournalEntry :=
  match j.find? (fun e => e.player_id == pid && e.universe_level == lvl) with
  | some _ =>
    j.map (fun e =>
      if e.player_id == pid && e.universe_level == lvl then
        { e with best_nn := max e.best_nn score,
                 session_id := if e.best_nn < score then some sid else e.session_id }
      else e)
  | none => j ++ [⟨pid, lvl, score, some sid⟩]

/-- The update_progress_journal trigger body: for every member of the updated
session with a non-null final score, upsert the journal at the session's
level. -/
def triggerJournal (st : Store) (sess : Session) : Store :=
  let rows := sessionPlayersOf st sess.id
  let j := rows.foldl
    (fun acc sp =>
      match sp.final_nn with
      | some s => triggerUpsert acc sp.player_id sess.universe_level s sess.id
      | none => acc)
    st.progress_journal
  { st with progress_journal := j }

/-- sessions.update(...).eq('id', sid): applies f to the matching row and
fires the AFTER UPDATE trigger when the row newly becomes completed. -/
def applySessionUpdate (st : Store) (sid : Nat) (f : Session → Session) : Store :=
  match findSession st sid with
  | none => st
  | some old =>
    let updated := f old
    let st' := { st with
      sessions := st.sessions.map (fun s => if s.id == sid then f s else s) }
    if updated.status = SessionStatus.completed ∧
        old.status ≠ SessionStatus.completed then
      triggerJournal st' updated
    else st'

/-- recalculateSessionLevel from join.js: read the session, read its members,
take the minimum of all members' max unlocked levels, and update the Session
row only when the level changed.  Returns the (re)fetched session, or none on
the error branches (missing session / empty membership). -/
def recalculateSessionLevel (st : Store) (sid : Nat) : Store × Option Session :=
  match findSession st sid with
  | none => (st, none)
  | some sess =>
    let members := sessionPlayersOf st sid
    if members.isEmpty then (st, none)
    else
      let maxes := members.map (fun sp => getPlayerMaxLevel st sp.player_id)
      let newLevel := listMin maxes
      if newLevel = sess.universe_level then
        (st, findSession st sid)
      else
        let st' := applySessionUpdate st sid
          (fun s => { s with universe_level := newLevel })
        (st', findSession st' sid)

/-- Request body of POST session/join. -/
structure JoinBody where
  sessionId : Option Nat
  playerName : Option String
  playerColor : Option String
  playerId : Option Nat
  replacePlayerId : Option Nat
deriving Repr, DecidableEq

/-- Success payload of POST session/join (the fields claims read). -/
structure JoinSuccess where
  sessionLevel : Nat
  playerId : Nat
  rejoined : Bool
  levelChanged : Bool
  previousLevel : Option Nat
  newLevel : Option Nat
deriving Repr, DecidableEq

/-- Response of POST session/join. -/
inductive JoinOut where
  | err (status : Nat) (msg : String)
  | ok (r : JoinSuccess)
deriving Repr, DecidableEq

/-- The membership step of join.js onRequest: rejoin (recalculate only) when
the resolved player already has a row, else insert the membership row and
recalculate.  `sess` is the session row read at the top of the handler. -/
def joinMembershipStep (st2 : Store) (sid : Nat) (sess : Session)
    (player : Player) (pcol : Option String) : Store × JoinOut :=
  match findSessionPlayer st2 sid player.id with
  | some _ =>
    let prev := sess.universe_level
    let rec1 := recalculateSessionLevel st2 sid
    let upd := rec1.2
    let newLevel := jsOrNat (upd.map (·.universe_level)) prev
    let levelChanged := newLevel != prev
    (rec1.1, JoinOut.ok ⟨(upd.getD sess).universe_level, player.id, true,
      levelChanged,
      if levelChanged then some prev else none,
      if levelChanged then some newLevel else none⟩)
  | none =>
    let row : SessionPlayer := ⟨sid, player.id, pcol, 0, none, false⟩
    let st3 := { st2 with session_players := st2.session_players ++ [row] }
    let rec1 := recalculateSessionLevel st3 sid
    let upd := rec1.2
    let prev := sess.universe_level
    let newLevel := jsOrNat (upd.map (·.universe_level)) prev
    let levelChanged := newLevel != prev
    (rec1.1, JoinOut.ok ⟨(upd.getD sess).universe_level, player.id, false,
      levelChanged,
      if levelChanged then some prev else none,
      if levelChanged then some newLevel else none⟩)

/-- POST session/join handler (join.js onRequest), covering first join,
rejoin, and replacement. -/
def joinHandler (st : Store) (b : JoinBody) : Store × JoinOut :=
  match b.sessionId with
  | none => (st, JoinOut.err 400 "sessionId is required")
  | some sid =>
  match b.playerName with
  | none => (st, JoinOut.err 400 "playerName is required")
  | some name =>
  if colorCheckFails b.playerColor then
    (st, JoinOut.err 400 "playerColor must be one of the valid colors")
  else
  match findSession st sid with
  | none => (st, JoinOut.err 404 "Session not found")
  | some sess =>
  if sess.status ≠ SessionStatus.active then
    (st, JoinOut.err 400 "Session is not active")
  else
    let res := resolvePlayer st b.playerId name
    let st1 := res.1
    let player := res.2
    let st2 :=
      match b.replacePlayerId with
      | some r =>
        if r ≠ player.id then
          { st1 with session_players := (st1.session_players.filter
              (fun sp => !(sp.session_id == sid && sp.player_id == r))) }
        else st1
      | none => st1
    joinMembershipStep st2 sid sess player b.playerColor

/-- Request body of POST session/recalculate-level. -/
structure RecalcBody where
  sessionId : Option Nat
  playerId : Option Nat
deriving Repr, DecidableEq

/-- Success payload of POST session/recalculate-level. -/
structure RecalcSuccess where
  sessionLevel : Nat
  levelChanged : Bool
  previousLevel : Option Nat
  newLevel : Option Nat
deriving Repr, DecidableEq

/-- Response of POST session/recalculate-level. -/
inductive RecalcOut where
  | err (status : Nat) (msg : String)
  | ok (r : RecalcSuccess)
deriving Repr, DecidableEq

/-- POST session/recalculate-level handler (standalone recalculation). -/
def recalcHandler (st : Store) (b : RecalcBody) : Store × RecalcOut :=
  match b.sessionId with
  | none => (st, RecalcOut.err 400 "sessionId is required")
  | some sid =>
  match findSession st sid with
  | none => (st, RecalcOut.err 404 "Session not found")
  | some sess =>
  if sess.status ≠ SessionStatus.active then
    (st, RecalcOut.err 400 "Session is not active")
  else
    let prev := sess.universe_level
    let members := sessionPlayersOf st sid
    if members.isEmpty then
      (st, RecalcOut.ok ⟨sess.universe_level, false, none, none⟩)
    else
      let maxes := members.map (fun sp => getPlayerMaxLevel st sp.player_id)
      let newLevel := listMin maxes
      if newLevel ≠ prev then
        let st' := applySessionUpdate st sid
          (fun s => { s with universe_level := newLevel })
        match findSession st' sid with
        | some updated =>
          (st', RecalcOut.ok ⟨updated.universe_level, true, some prev, some newLevel⟩)
        | none => (st', RecalcOut.err 500 "Failed to update session level")
      else
        (st, RecalcOut.ok ⟨sess.universe_level, false, none, none⟩)

/-- Request body of POST session/end. -/
structure VoteBody where
  sessionId : Option Nat
  playerId : Option Nat
deriving Repr, DecidableEq

/-- Success payload of POST session/end; vote counts are absent on the
completion response. -/
structure VoteSuccess where
  sessionCompleted : Bool
  votedCount : Option Nat
  totalPlayers : Option Nat
deriving Repr, DecidableEq

/-- Response of POST session/end. -/
inductive VoteOut where
  | err (status : Nat) (msg : String)
  | ok (r : VoteSuccess)
deriving Repr, DecidableEq

/-- The row update of session_players.update({voted_end: true}).eq(sid).eq(pid). -/
def voteMark (sid pid : Nat) (sp : SessionPlayer) : SessionPlayer :=
  if sp.session_id == sid && sp.player_id == pid then
    { sp with voted_end := true }
  else sp

/-- POST session/end handler: record the member's vote and complete the
session when every member has voted (which fires the schema trigger). -/
def voteEndHandler (st : Store) (b : VoteBody) : Store × VoteOut :=
  match b.sessionId with
  | none => (st, VoteOut.err 400 "sessionId is required")
  | some sid =>
  match b.playerId with
  | none => (st, VoteOut.err 400 "playerId is required")
  | some pid =>
  match findSession st sid with
  | none => (st, VoteOut.err 404 "Session not found")
  | some sess =>
  if sess.status ≠ SessionStatus.active then
    (st, VoteOut.err 400 "Session is not active")
  else
  match findSessionPlayer st sid pid with
  | none => (st, VoteOut.err 404 "Player not in session")
  | some _ =>
    let st1 := { st with session_players := (st.session_players.map (voteMark sid pid)) }
    let allPlayers := sessionPlayersOf st1 sid
    let allVoted := allPlayers.all (·.voted_end)
    if allVoted then
      let st2 := applySessionUpdate st1 sid
        (fun s => { s with status := SessionStatus.completed, ended := true })
      (st2, VoteOut.ok ⟨true, none, none⟩)
    else
      let votedCount := (allPlayers.filter (·.voted_end)).length
      (st1, VoteOut.ok ⟨false, some votedCount, some allPlayers.length⟩)

/-- sessions.insert guarded by the partial unique index
idx_active_session_per_box: errors (code 23505) when the box already has an
active session. -/
def insertSession (st : Store) (box : String) (lvl : Nat) (host : Nat) :
    Except Unit (Store × Session) :=
  if st.sessions.any (fun s => s.box_id == box && s.status == SessionStatus.active) then
    Except.error ()
  else
    let sess : Session := ⟨st.next_id, box, lvl, SessionStatus.active, host, false⟩
    Except.ok ({ st with sessions := st.sessions ++ [sess], next_id := st.next_id + 1 }, sess)

/-- Request body of POST session/create. -/
structure CreateBody where
  boxId : Option String
  universeLevel : Option Nat
  playerName : Option String
  playerColor : Option String
  playerId : Option Nat
deriving Repr, DecidableEq

/-- Success payload of POST session/create. -/
structure CreateSuccess where
  sessionId : Nat
  playerId : Nat
  sessionLevel : Nat
deriving Repr, DecidableEq

/-- Response of POST session/create. -/
inductive CreateOut where
  | err (status : Nat) (msg : String)
  | ok (r : CreateSuccess)
deriving Repr, DecidableEq

/-- POST session/create handler: lazily register the box, reject when an
active session already exists for it, resolve or create the host player,
create the session, and insert the host as first member. -/
def createHandler (st : Store) (b : CreateBody) : Store × CreateOut :=
  match b.boxId with
  | none => (st, CreateOut.err 400 "boxId is required")
  | some box =>
  match b.universeLevel with
  | none => (st, CreateOut.err 400 "universeLevel must be between 1 and 13")
  | some lvl =>
  if lvl < 1 ∨ 13 < lvl then
    (st, CreateOut.err 400 "universeLevel must be between 1 and 13")
  else
  match b.playerName with
  | none => (st, CreateOut.err 400 "playerName is required")
  | some name =>
  if colorCheckFails b.playerColor then
    (st, CreateOut.err 400 "playerColor must be one of the valid colors")
  else
    let st1 :=
      if st.game_boxes.contains box then st
      else { st with game_boxes := st.game_boxes ++ [box] }
    if st1.sessions.any (fun s => s.box_id == box && s.status == SessionStatus.active) then
      (st1, CreateOut.err 409 "Box already has an active session")
    else
      let res := resolvePlayer st1 b.playerId name
      let st2 := res.1
      let player := res.2
      match insertSession st2 box lvl player.id with
      | Except.error _ => (st2, CreateOut.err 500 "session insert failed")
      | Except.ok (st3, sess) =>
        let row : SessionPlayer := ⟨sess.id, player.id, b.playerColor, 0, none, false⟩
        let st4 := { st3 with session_players := st3.session_players ++ [row] }
        (st4, CreateOut.ok ⟨sess.id, player.id, sess.universe_level⟩)

/-- Request body of POST session/submit-score. -/
structure SubmitBody where
  sessionId : Option Nat
  playerId : Option Nat
  finalNn : Option Int
  color : Option String
  startingNn : Option Int
deriving Repr, DecidableEq

/-- Success payload of POST session/submit-score. -/
structure SubmitSuccess where
  allSubmitted : Bool
  submittedCount : Nat
  totalPlayers : Nat
  sessionCompleted : Bool
  nextSession : Option (Nat × Nat)
deriving Repr, DecidableEq

/-- Response of POST session/submit-score. -/
inductive SubmitOut where
  | err (status : Nat) (msg : String)
  | ok (r : SubmitSuccess)
deriving Repr, DecidableEq

/-- One iteration of the JS-side progress-journal loop of submit-score.js:
update only when the new score strictly beats the stored best, insert (with
no session_id) when no row exists.  The none branch is unreachable on the
completion path, where every member has a non-null final score. -/
def jsJournalStep (lvl : Nat) (j : List JournalEntry) (sp : SessionPlayer) :
    List JournalEntry :=
  match sp.final_nn with
  | none => j
  | some s =>
    match j.find? (fun e => e.player_id == sp.player_id && e.universe_level == lvl) with
    | some ex =>
      if ex.best_nn < s then
        j.map (fun e =>
          if e.player_id == sp.player_id && e.universe_level == lvl then
            { e with best_nn := s }
          else e)
      else j
    | none => j ++ [⟨sp.player_id, lvl, s, none⟩]

/-- The member-row update written by submit-score.js before the completion
check: final_nn always, race and starting_nn when supplied. -/
def submitRowUpdate (b : SubmitBody) (fnn : Int) (sp : SessionPlayer) :
    SessionPlayer :=
  let sp1 := { sp with final_nn := some fnn }
  let sp2 :=
    match b.color with
    | some c => { sp1 with race := some c }
    | none => sp1
  match b.startingNn with
  | some s0 => { sp2 with starting_nn := s0 }
  | none => sp2

/-- The row update applied across session_players by submit-score.js: only
the caller's membership row of this session is rewritten. -/
def submitMark (b : SubmitBody) (fnn : Int) (sid pid : Nat)
    (sp : SessionPlayer) : SessionPlayer :=
  if sp.session_id == sid && sp.player_id == pid then
    submitRowUpdate b fnn sp
  else sp

/-- The completion transition of submit-score.js, reached when every member
has a non-null final score: mark the session completed (fires the schema
trigger), verify, run the JS journal loop, and create the next-level session
with all members copied, resolving a duplicate active-session conflict by
re-fetching (the bounded retry loop collapses to one fetch in a sequential
store model, whose state does not change between attempts). -/
def submitCompletionStep (st1 : Store) (sid : Nat) (sess : Session)
    (allPlayers : List SessionPlayer) (submittedCount : Nat) : Store × SubmitOut :=
  let st2 := applySessionUpdate st1 sid
    (fun s => { s with status := SessionStatus.completed, ended := true })
  match findSession st2 sid with
  | none => (st2, SubmitOut.err 500 "Failed to complete session")
  | some verified =>
    if verified.status ≠ SessionStatus.completed then
      (st2, SubmitOut.err 500 "Failed to complete session")
    else
      let st3 := { st2 with progress_journal :=
        (allPlayers.foldl (jsJournalStep sess.universe_level) st2.progress_journal) }
      let nextLevel := sess.universe_level + 1
      if nextLevel ≤ 13 then
        match insertSession st3 sess.box_id nextLevel sess.host_player_id with
        | Except.error _ =>
          let existing := st3.sessions.find?
            (fun s => s.box_id == sess.box_id &&
              s.universe_level == nextLevel && s.status == SessionStatus.active)
          (st3, SubmitOut.ok ⟨true, submittedCount, allPlayers.length, true,
            existing.map (fun s => (s.id, s.universe_level))⟩)
        | Except.ok (st4, newSess) =>
          let st5 := { st4 with session_players := (st4.session_players ++
            allPlayers.map (fun p =>
              (⟨newSess.id, p.player_id, p.race, 0, none, false⟩ : SessionPlayer))) }
          (st5, SubmitOut.ok ⟨true, submittedCount, allPlayers.length, true,
            some (newSess.id, newSess.universe_level)⟩)
      else
        (st3, SubmitOut.ok ⟨true, submittedCount, allPlayers.length, true, none⟩)

/-- POST session/submit-score handler: validate, update the member row, and
either report progress or run the completion transition. -/
def submitScoreHandler (st : Store) (b : SubmitBody) : Store × SubmitOut :=
  match b.sessionId with
  | none => (st, SubmitOut.err 400 "sessionId is required")
  | some sid =>
  match b.playerId with
  | none => (st, SubmitOut.err 400 "playerId is required")
  | some pid =>
  match b.finalNn with
  | none => (st, SubmitOut.err 400 "finalNn is required")
  | some fnn =>
  if colorCheckFails b.color then
    (st, SubmitOut.err 400 "color must be one of the valid colors")
  else
  match findSession st sid with
  | none => (st, SubmitOut.err 404 "Session not found")
  | some sess =>
  if sess.status ≠ SessionStatus.active then
    (st, SubmitOut.err 400 "Session is not active")
  else
  match findSessionPlayer st sid pid with
  | none => (st, SubmitOut.err 404 "Player not in session")
  | some _ =>
    let st1 := { st with session_players :=
      (st.session_players.map (submitMark b fnn sid pid)) }
    let allPlayers := sessionPlayersOf st1 sid
    let allSubmitted := allPlayers.all (fun p => p.final_nn.isSome)
    let submittedCount := (allPlayers.filter (fun p => p.final_nn.isSome)).length
    if allSubmitted && !allPlayers.isEmpty then
      submitCompletionStep st1 sid sess allPlayers submittedCount
    else
      (st1, SubmitOut.ok ⟨false, submittedCount, allPlayers.length, false, none⟩)

/-- Journal lookup by (player, level), projected to the stored best score. -/
def jlookup (j : List JournalEntry) (pid lvl : Nat) : Option Int :=
  (j.find? (fun e => e.player_id == pid && e.universe_level == lvl)).map (·.best_nn)

/-- The best stored score of a player at a level, none when no row exists. -/
def bestNn (st : Store) (pid lvl : Nat) : Option Int :=
  jlookup st.progress_journal pid lvl

/-- The value an upsert leaves behind: the greater of the existing best and
the new score, or the new score when no row existed. -/
def combineBest (old : Option Int) (s : Int) : Int :=
  match old with
  | some o => max o s
  | none => s

/-- Order on optional best scores: absent is below everything, present
values compare by ≤.  Used to state that a best score never decreases. -/
def bestLe (a b : Option Int) : Prop :=
  ∀ x, a = some x → ∃ y, b = some y ∧ x ≤ y

/-- Pointwise bestLe over whole journals. -/
def journalLe (j j' : List JournalEntry) : Prop :=
  ∀ pid lvl, bestLe (jlookup j pid lvl) (jlookup j' pid lvl)

/-- A sequence of submit-score requests applied to the store in order. -/
def applySubmitSeq (st : Store) (reqs : List SubmitBody) : Store :=
  reqs.foldl (fun s b => (submitScoreHandler s b).1) st

/-- Reachable-store invariant from the sessions foreign key: every session's
box is registered in game_boxes. -/
def boxFkInv (st : Store) : Prop :=
  ∀ s ∈ st.sessions, s.box_id ∈ st.game_boxes

end Neutronium

namespace Neutronium

/-! Generic list lemmas about key-preserving maps. -/

theorem find?_map_ite {α : Type} (key : α → Bool) (f : α → α)
    (hf : ∀ x, key (f x) = key x) (l : List α) :
    (l.map (fun x => if key x then f x else x)).find? key = (l.find? key).map f := by
  induction l with
  | nil => rfl
  | cons a t ih =>
    by_cases h : key a = true
    · simp [List.find?_cons, h, hf]
    · have h' : key a = false := by revert h; cases key a <;> simp
      simp [List.find?_cons, h', hf, ih]

theorem find?_map_keep {α : Type} (key : α → Bool) (f : α → α)
    (hf : ∀ x, key (f x) = key x) (l : List α) :
    (l.map f).find? key = (l.find? key).map f := by
  induction l with
  | nil => rfl
  | cons a t ih =>
    by_cases h : key a = true
    · simp [List.find?_cons, h, hf]
    · have h' : key a = false := by revert h; cases key a <;> simp
      simp [List.find?_cons, h', hf, ih]

theorem filter_map_keep {α : Type} (key : α → Bool) (f : α → α)
    (hf : ∀ x, key (f x) = key x) (l : List α) :
    (l.map f).filter key = (l.filter key).map f := by
  induction l with
  | nil => rfl
  | cons a t ih =>
    by_cases h : key a = true
    · simp [List.filter_cons, h, hf, ih]
    · have h' : key a = false := by revert h; cases key a <;> simp
      simp [List.filter_cons, h', hf, ih]

/-! Preservation facts for applySessionUpdate. -/

theorem applySessionUpdate_players (st : Store) (sid : Nat) (f : Session → Session) :
    (applySessionUpdate st sid f).players = st.players := by
  unfold applySessionUpdate triggerJournal
  cases findSession st sid <;> simp <;> split <;> rfl

theorem applySessionUpdate_session_players (st : Store) (sid : Nat)
    (f : Session → Session) :
    (applySessionUpdate st sid f).session_players = st.session_players := by
  unfold applySessionUpdate triggerJournal
  cases findSession st sid <;> simp <;> split <;> rfl

theorem applySessionUpdate_game_boxes (st : Store) (sid : Nat)
    (f : Session → Session) :
    (applySessionUpdate st sid f).game_boxes = st.game_boxes := by
  unfold applySessionUpdate triggerJournal
  cases findSession st sid <;> simp <;> split <;> rfl

theorem applySessionUpdate_next_id (st : Store) (sid : Nat)
    (f : Session → Session) :
    (applySessionUpdate st sid f).next_id = st.next_id := by
  unfold applySessionUpdate triggerJournal
  cases findSession st sid <;> simp <;> split <;> rfl

theorem applySessionUpdate_journal_of_status (st : Store) (sid : Nat)
    (f : Session → Session) (hf : ∀ s, (f s).status = s.status) :
    (applySessionUpdate st sid f).progress_journal = st.progress_journal := by
  unfold applySessionUpdate
  cases h : findSession st sid with
  | none => rfl
  | some old =>
    simp only
    rw [if_neg]
    rintro ⟨h1, h2⟩
    exact h2 (by rw [← hf old]; exact h1)

theorem applySessionUpdate_sessions (st : Store) (sid : Nat)
    (f : Session → Session) (hold : (findSession st sid).isSome) :
    (applySessionUpdate st sid f).sessions =
      st.sessions.map (fun s => if s.id == sid then f s else s) := by
  unfold applySessionUpdate triggerJournal
  cases h : findSession st sid with
  | none => simp [h] at hold
  | some old => simp only; split <;> rfl

theorem findSession_applySessionUpdate (st : Store) (sid : Nat)
    (f : Session → Session) (hid : ∀ s, (f s).id = s.id)
    (hold : (findSession st sid).isSome) :
    findSession (applySessionUpdate st sid f) sid = (findSession st sid).map f := by
  unfold findSession
  rw [show (applySessionUpdate st sid f).sessions =
        st.sessions.map (fun s => if s.id == sid then f s else s) from
      applySessionUpdate_sessions st sid f hold]
  exact find?_map_ite (fun s => s.id == sid) f (fun s => by simp [hid]) st.sessions

/-! Basic bounds for max-unlocked levels and list minima. -/

theorem getPlayerMaxLevelCore_pos (pr : Except Unit Bool)
    (gr : Except Unit (List Nat)) : 1 ≤ getPlayerMaxLevelCore pr gr := by
  unfold getPlayerMaxLevelCore
  rcases pr with _ | g
  · exact le_refl 1
  · by_cases hg : g = true
    · simp [hg]
    · have hg' : g = false := by revert hg; cases g <;> simp
      rcases gr with _ | levels
      · simp [hg']
      · by_cases he : levels.isEmpty
        · simp [hg', he]
        · simp only [hg', he]
          simp [Nat.le_min]

theorem getPlayerMaxLevel_pos (st : Store) (pid : Nat) :
    1 ≤ getPlayerMaxLevel st pid :=
  getPlayerMaxLevelCore_pos _ _

theorem foldl_min_le_init (t : List Nat) (a : Nat) : t.foldl Nat.min a ≤ a := by
  induction t generalizing a with
  | nil => exact le_refl a
  | cons x t ih =>
    exact le_trans (ih (Nat.min a x)) (Nat.min_le_left a x)

theorem foldl_min_le_mem (t : List Nat) (a x : Nat) (hx : x ∈ t) :
    t.foldl Nat.min a ≤ x := by
  induction t generalizing a with
  | nil => cases hx
  | cons y t ih =>
    rcases List.mem_cons.mp hx with h | h
    · subst h
      exact le_trans (foldl_min_le_init t (Nat.min a x)) (Nat.min_le_right a x)
    · exact ih (Nat.min a y) h

theorem le_foldl_min (t : List Nat) (a c : Nat) (ha : c ≤ a)
    (h : ∀ x ∈ t, c ≤ x) : c ≤ t.foldl Nat.min a := by
  induction t generalizing a with
  | nil => exact ha
  | cons y t ih =>
    exact ih (Nat.min a y) (le_min ha (h y (List.mem_cons_self y t)))
      (fun x hx => h x (List.mem_cons_of_mem y hx))

theorem listMin_le (l : List Nat) (x : Nat) (hx : x ∈ l) : listMin l ≤ x := by
  cases l with
  | nil => cases hx
  | cons a t =>
    unfold listMin
    rcases List.mem_cons.mp hx with h | h
    · subst h; exact foldl_min_le_init t x
    · exact foldl_min_le_mem t a x h

theorem le_listMin (l : List Nat) (c : Nat) (hne : l ≠ [])
    (h : ∀ x ∈ l, c ≤ x) : c ≤ listMin l := by
  cases l with
  | nil => exact absurd rfl hne
  | cons a t =>
    unfold listMin
    exact le_foldl_min t a c (h a (List.mem_cons_self a t))
      (fun x hx => h x (List.mem_cons_of_mem a hx))

theorem listMin_eq_one (l : List Nat) (h1 : (1 : Nat) ∈ l)
    (h : ∀ x ∈ l, 1 ≤ x) : listMin l = 1 :=
  le_antisymm (listMin_le l 1 h1) (le_listMin l 1 (by rintro rfl; cases h1) h)

/-! Congruence of the level computations in the store components they read. -/

theorem getPlayerMaxLevel_congr (st st' : Store) (pid : Nat)
    (hpl : st'.players = st.players)
    (hj : st'.progress_journal = st.progress_journal) :
    getPlayerMaxLevel st' pid = getPlayerMaxLevel st pid := by
  unfold getPlayerMaxLevel playerQuery findPlayer journalLevels
  rw [hpl, hj]

theorem sessionMinLevel_congr (st st' : Store) (sid : Nat)
    (hpl : st'.players = st.players)
    (hsp : st'.session_players = st.session_players)
    (hj : st'.progress_journal = st.progress_journal) :
    sessionMinLevel st' sid = sessionMinLevel st sid := by
  unfold sessionMinLevel sessionPlayersOf
  rw [hsp]
  have : (fun sp : SessionPlayer => getPlayerMaxLevel st' sp.player_id)
      = (fun sp : SessionPlayer => getPlayerMaxLevel st sp.player_id) :=
    funext (fun sp => getPlayerMaxLevel_congr st st' sp.player_id hpl hj)
  rw [this]

theorem sessionPlayersOf_congr (st st' : Store) (sid : Nat)
    (hsp : st'.session_players = st.session_players) :
    sessionPlayersOf st' sid = sessionPlayersOf st sid := by
  unfold sessionPlayersOf
  rw [hsp]

theorem findSession_congr (st st' : Store) (sid : Nat)
    (hs : st'.sessions = st.sessions) :
    findSession st' sid = findSession st sid := by
  unfold findSession
  rw [hs]

/-! The central fact about recalculateSessionLevel (join.js): on an existing
session with a nonempty membership it returns a session row whose level is
the minimum of the members' max unlocked levels, updating only the sessions
table. -/

theorem recalculateSessionLevel_spec (st : Store) (sid : Nat) (sess : Session)
    (h : findSession st sid = some sess)
    (hne : (sessionPlayersOf st sid).isEmpty = false) :
    ∃ s', (recalculateSessionLevel st sid).2 = some s' ∧
      findSession (recalculateSessionLevel st sid).1 sid = some s' ∧
      s'.universe_level = sessionMinLevel st sid ∧
      (recalculateSessionLevel st sid).1.players = st.players ∧
      (recalculateSessionLevel st sid).1.session_players = st.session_players ∧
      (recalculateSessionLevel st sid).1.progress_journal = st.progress_journal ∧
      (recalculateSessionLevel st sid).1.game_boxes = st.game_boxes ∧
      (recalculateSessionLevel st sid).1.next_id = st.next_id := by
  unfold recalculateSessionLevel
  rw [h]
  simp only [hne, Bool.false_eq_true, if_false]
  by_cases heq : listMin ((sessionPlayersOf st sid).map
      (fun sp => getPlayerMaxLevel st sp.player_id)) = sess.universe_level
  · refine ⟨sess, ?_⟩
    rw [if_pos heq]
    exact ⟨rfl, h, heq.symm, rfl, rfl, rfl, rfl, rfl⟩
  · simp only [if_neg heq]
    set f : Session → Session :=
      fun s => { s with universe_level := listMin ((sessionPlayersOf st sid).map
        (fun sp => getPlayerMaxLevel st sp.player_id)) } with hf
    have hfind : findSession (applySessionUpdate st sid f) sid
        = (findSession st sid).map f :=
      findSession_applySessionUpdate st sid f (fun s => rfl) (by rw [h]; rfl)
    refine ⟨f sess, ?_⟩
    rw [h] at hfind
    simp only [hfind, h, Option.map_some]
    exact ⟨rfl, rfl, rfl, applySessionUpdate_players st sid f,
      applySessionUpdate_session_players st sid f,
      applySessionUpdate_journal_of_status st sid f (fun s => rfl),
      applySessionUpdate_game_boxes st sid f,
      applySessionUpdate_next_id st sid f⟩

/-! Preservation facts for resolvePlayer and membership helpers. -/

theorem resolvePlayer_sessions (st : Store) (pidOpt : Option Nat) (name : String) :
    (resolvePlayer st pidOpt name).1.sessions = st.sessions := by
  unfold resolvePlayer insertGuestPlayer
  rcases pidOpt with _ | pid
  · rfl
  · rcases h : findPlayer st pid with _ | p <;> simp [h]

theorem resolvePlayer_session_players (st : Store) (pidOpt : Option Nat)
    (name : String) :
    (resolvePlayer st pidOpt name).1.session_players = st.session_players := by
  unfold resolvePlayer insertGuestPlayer
  rcases pidOpt with _ | pid
  · rfl
  · rcases h : findPlayer st pid with _ | p <;> simp [h]

theorem resolvePlayer_progress_journal (st : Store) (pidOpt : Option Nat)
    (name : String) :
    (resolvePlayer st pidOpt name).1.progress_journal = st.progress_journal := by
  unfold resolvePlayer insertGuestPlayer
  rcases pidOpt with _ | pid
  · rfl
  · rcases h : findPlayer st pid with _ | p <;> simp [h]

theorem findSessionPlayer_mem (st : Store) (sid pid : Nat) (sp : SessionPlayer)
    (h : findSessionPlayer st sid pid = some sp) :
    sp ∈ st.session_players ∧ (sp.session_id == sid) = true := by
  have hmem := List.mem_of_find?_eq_some h
  have hpred := List.find?_some h
  exact ⟨hmem, ((Bool.and_eq_true _ _).mp hpred).1⟩

theorem sessionPlayersOf_isEmpty_false_of_mem (st : Store) (sid : Nat)
    (sp : SessionPlayer) (hmem : sp ∈ st.session_players)
    (hsid : (sp.session_id == sid) = true) :
    (sessionPlayersOf st sid).isEmpty = false := by
  have hin : sp ∈ sessionPlayersOf st sid :=
    List.mem_filter.mpr ⟨hmem, hsid⟩
  cases h : (sessionPlayersOf st sid).isEmpty
  · rfl
  · rw [List.isEmpty_iff] at h
    rw [h] at hin
    cases hin

/-- The common tail of every successful join path: the post-store is the
first component of recalculateSessionLevel, whose session row carries the
minimum of the members' max unlocked levels. -/
theorem join_recalc_tail (st0 : Store) (sid : Nat) (sess : Session)
    (hsess0 : findSession st0 sid = some sess)
    (hne : (sessionPlayersOf st0 sid).isEmpty = false) :
    ∃ s', findSession (recalculateSessionLevel st0 sid).1 sid = some s' ∧
      s'.universe_level = sessionMinLevel (recalculateSessionLevel st0 sid).1 sid := by
  obtain ⟨s', _, hfind, hlvl, hp, hsp, hj, _, _⟩ :=
    recalculateSessionLevel_spec st0 sid sess hsess0 hne
  refine ⟨s', hfind, ?_⟩
  rw [sessionMinLevel_congr st0 (recalculateSessionLevel st0 sid).1 sid hp hsp hj]
  exact hlvl

/-- Both join paths (rejoin and first join) end in a recalculated session
whose level is the minimum of the members' max unlocked levels. -/
theorem joinMembershipStep_spec (st2 : Store) (sid : Nat) (sess : Session)
    (player : Player) (pcol : Option String)
    (hsess2 : findSession st2 sid = some sess) :
    ∃ s', findSession (joinMembershipStep st2 sid sess player pcol).1 sid = some s' ∧
      s'.universe_level =
        sessionMinLevel (joinMembershipStep st2 sid sess player pcol).1 sid ∧
      ∃ r, (joinMembershipStep st2 sid sess player pcol).2 = JoinOut.ok r := by
  unfold joinMembershipStep
  rcases hm : findSessionPlayer st2 sid player.id with _ | entry
  · simp only [hm]
    have hne : (sessionPlayersOf { st2 with session_players :=
        st2.session_players ++ [(⟨sid, player.id, pcol, 0, none, false⟩ : SessionPlayer)] }
        sid).isEmpty = false := by
      apply sessionPlayersOf_isEmpty_false_of_mem _ sid
        (⟨sid, player.id, pcol, 0, none, false⟩ : SessionPlayer)
      · exact List.mem_append.mpr (Or.inr (by simp))
      · simp
    have hsess3 : findSession { st2 with session_players :=
        st2.session_players ++ [(⟨sid, player.id, pcol, 0, none, false⟩ : SessionPlayer)] }
        sid = some sess := hsess2
    obtain ⟨s', hfind, hlvl⟩ := join_recalc_tail _ sid sess hsess3 hne
    exact ⟨s', hfind, hlvl, _, rfl⟩
  · simp only [hm]
    obtain ⟨hmem, hsid⟩ := findSessionPlayer_mem st2 sid player.id entry hm
    have hne := sessionPlayersOf_isEmpty_false_of_mem st2 sid entry hmem hsid
    obtain ⟨s', hfind, hlvl⟩ := join_recalc_tail st2 sid sess hsess2 hne
    exact ⟨s', hfind, hlvl, _, rfl⟩

/-- Claim C1: for every active session, after a join, rejoin, replacement
(all paths of the join handler) or standalone recalculate-level call
completes successfully, the session's universe_level equals the minimum of
the max-unlocked-level values of its current members (for recalculate-level
the session must have at least one member; every join leaves at least one). -/
theorem C1_session_level_invariant :
    (∀ (st : Store) (sid : Nat) (name : String) (pcol : Option String)
        (pidOpt repl : Option Nat) (sess : Session),
      colorCheckFails pcol = false →
      findSession st sid = some sess →
      sess.status = SessionStatus.active →
      ∃ s', findSession (joinHandler st ⟨some sid, some name, pcol, pidOpt, repl⟩).1
          sid = some s' ∧
        s'.universe_level =
          sessionMinLevel (joinHandler st ⟨some sid, some name, pcol, pidOpt, repl⟩).1 sid ∧
        ∃ r, (joinHandler st ⟨some sid, some name, pcol, pidOpt, repl⟩).2 = JoinOut.ok r) ∧
    (∀ (st : Store) (sid : Nat) (pidOpt : Option Nat) (sess : Session),
      findSession st sid = some sess →
      sess.status = SessionStatus.active →
      (sessionPlayersOf st sid).isEmpty = false →
      ∃ s', findSession (recalcHandler st ⟨some sid, pidOpt⟩).1 sid = some s' ∧
        s'.universe_level = sessionMinLevel (recalcHandler st ⟨some sid, pidOpt⟩).1 sid ∧
        ∃ r, (recalcHandler st ⟨some sid, pidOpt⟩).2 = RecalcOut.ok r) := by
  constructor
  · intro st sid name pcol pidOpt repl sess hcol hsess hact
    unfold joinHandler
    simp only [hcol, Bool.false_eq_true, if_false, hsess, hact, ne_eq,
      not_true_eq_false]
    cases repl with
    | none =>
      refine joinMembershipStep_spec (resolvePlayer st pidOpt name).1 sid sess
        (resolvePlayer st pidOpt name).2 pcol ?_
      exact (findSession_congr st _ sid (resolvePlayer_sessions st pidOpt name)).trans hsess
    | some rp =>
      dsimp only
      by_cases hrp : rp = (resolvePlayer st pidOpt name).2.id
      · rw [if_neg (not_not_intro hrp)]
        refine joinMembershipStep_spec _ sid sess _ pcol ?_
        refine (findSession_congr st _ sid ?_).trans hsess
        exact resolvePlayer_sessions st pidOpt name
      · rw [if_pos hrp]
        refine joinMembershipStep_spec _ sid sess _ pcol ?_
        refine (findSession_congr st _ sid ?_).trans hsess
        exact resolvePlayer_sessions st pidOpt name
  · intro st sid pidOpt sess hsess hact hne
    unfold recalcHandler
    simp only [hsess, hact, ne_eq, not_true_eq_false, if_false, hne,
      Bool.false_eq_true]
    by_cases hch : listMin ((sessionPlayersOf st sid).map
        (fun sp => getPlayerMaxLevel st sp.player_id)) = sess.universe_level
    · rw [if_neg (not_not_intro hch)]
      exact ⟨sess, hsess, hch.symm, _, rfl⟩
    · rw [if_pos hch]
      have hfind : findSession (applySessionUpdate st sid (fun s =>
          { s with universe_level := listMin ((sessionPlayersOf st sid).map
              (fun sp => getPlayerMaxLevel st sp.player_id)) })) sid
          = (findSession st sid).map (fun s =>
          { s with universe_level := listMin ((sessionPlayersOf st sid).map
              (fun sp => getPlayerMaxLevel st sp.player_id)) }) :=
        findSession_applySessionUpdate st sid _ (fun s => rfl) (by rw [hsess]; rfl)
      rw [hsess] at hfind
      simp only [Option.map_some'] at hfind
      simp only [hfind]
      refine ⟨_, rfl, ?_, _, rfl⟩
      rw [sessionMinLevel_congr st (applySessionUpdate st sid (fun s =>
        { s with universe_level := listMin ((sessionPlayersOf st sid).map
            (fun sp => getPlayerMaxLevel st sp.player_id)) })) sid
        (applySessionUpdate_players st sid (fun s =>
          { s with universe_level := listMin ((sessionPlayersOf st sid).map
              (fun sp => getPlayerMaxLevel st sp.player_id)) }))
        (applySessionUpdate_session_players st sid (fun s =>
          { s with universe_level := listMin ((sessionPlayersOf st sid).map
              (fun sp => getPlayerMaxLevel st sp.player_id)) }))
        (applySessionUpdate_journal_of_status st sid (fun s =>
          { s with universe_level := listMin ((sessionPlayersOf st sid).map
              (fun sp => getPlayerMaxLevel st sp.player_id)) }) (fun s => rfl))]
      rfl

/-- Witness for C1 at a concrete store: a guest joins an active level-5
session hosted by a non-guest with max level 5; afterwards the session sits
at level 1 = min(5, 1), and the standalone recalculation is also exercised. -/
theorem C1_session_level_invariant_witness :
    (colorCheckFails (some "pink") = false ∧
     findSession ⟨[⟨1, "ava", false⟩, ⟨2, "ben", true⟩], ["BX"],
        [⟨10, "BX", 5, SessionStatus.active, 1, false⟩],
        [⟨10, 1, some "gray", 0, none, false⟩], [⟨1, 4, 100, none⟩], 20⟩ 10 =
       some ⟨10, "BX", 5, SessionStatus.active, 1, false⟩) ∧
    (sessionPlayersOf ⟨[⟨1, "ava", false⟩, ⟨2, "ben", true⟩], ["BX"],
        [⟨10, "BX", 5, SessionStatus.active, 1, false⟩],
        [⟨10, 1, some "gray", 0, none, false⟩], [⟨1, 4, 100, none⟩], 20⟩ 10).isEmpty
      = false ∧
    (∃ s', findSession (joinHandler ⟨[⟨1, "ava", false⟩, ⟨2, "ben", true⟩], ["BX"],
        [⟨10, "BX", 5, SessionStatus.active, 1, false⟩],
        [⟨10, 1, some "gray", 0, none, false⟩], [⟨1, 4, 100, none⟩], 20⟩
        ⟨some 10, some "ben", some "pink", some 2, none⟩).1 10 = some s' ∧
      s'.universe_level = sessionMinLevel (joinHandler ⟨[⟨1, "ava", false⟩,
        ⟨2, "ben", true⟩], ["BX"], [⟨10, "BX", 5, SessionStatus.active, 1, false⟩],
        [⟨10, 1, some "gray", 0, none, false⟩], [⟨1, 4, 100, none⟩], 20⟩
        ⟨some 10, some "ben", some "pink", some 2, none⟩).1 10 ∧
      ∃ r, (joinHandler ⟨[⟨1, "ava", false⟩, ⟨2, "ben", true⟩], ["BX"],
        [⟨10, "BX", 5, SessionStatus.active, 1, false⟩],
        [⟨10, 1, some "gray", 0, none, false⟩], [⟨1, 4, 100, none⟩], 20⟩
        ⟨some 10, some "ben", some "pink", some 2, none⟩).2 = JoinOut.ok r) := by
  refine ⟨⟨by decide, by decide⟩, by decide, ?_⟩
  exact C1_session_level_invariant.1 _ 10 "ben" (some "pink") (some 2) none
    ⟨10, "BX", 5, SessionStatus.active, 1, false⟩ (by decide) (by decide) rfl

theorem jsOrNat_none (d : Nat) : jsOrNat none d = d := rfl

theorem jsOrNat_some_self (d : Nat) : jsOrNat (some d) d = d := by
  unfold jsOrNat
  dsimp only
  split <;> rfl

theorem jsOrNat_some_of_pos (v d : Nat) (h : 1 ≤ v) : jsOrNat (some v) d = v := by
  unfold jsOrNat
  dsimp only
  rw [if_neg (by omega)]

/-- Claim C10: the recalculate-level handler never reads the playerId field
of its request body: two requests whose sessionId fields agree produce the
same store reads and writes and the same response, whatever their playerId
fields (present, absent, or different). -/
theorem C10_recalc_ignores_playerId (st : Store) (b1 b2 : RecalcBody)
    (h : b1.sessionId = b2.sessionId) :
    recalcHandler st b1 = recalcHandler st b2 := by
  cases b1 with
  | mk s1 p1 =>
    cases b2 with
    | mk s2 p2 =>
      dsimp only at h
      subst h
      rfl

/-- Witness for C10: same sessionId, one body with a playerId and one
without, on a concrete store. -/
theorem C10_recalc_ignores_playerId_witness :
    recalcHandler ⟨[], [], [], [], [], 0⟩ ⟨some 3, some 7⟩ =
      recalcHandler ⟨[], [], [], [], [], 0⟩ ⟨some 3, none⟩ :=
  C10_recalc_ignores_playerId ⟨[], [], [], [], [], 0⟩ ⟨some 3, some 7⟩
    ⟨some 3, none⟩ rfl

/-- Claim C8: on an existing active session the standalone recalculate-level
handler produces exactly the outcome of the join-triggered recalculation:
the same post-store (hence the same new session level and the same decision
of whether to update the Session row) and the same levelChanged /
previousLevel / newLevel report that the join handler derives from
recalculateSessionLevel's result. -/
theorem C8_recalc_equals_join_recalc (st : Store) (sid : Nat)
    (pidOpt : Option Nat) (sess : Session)
    (hsess : findSession st sid = some sess)
    (hact : sess.status = SessionStatus.active) :
    recalcHandler st ⟨some sid, pidOpt⟩ =
      ((recalculateSessionLevel st sid).1,
        RecalcOut.ok
          ⟨(((recalculateSessionLevel st sid).2).getD sess).universe_level,
           (jsOrNat (((recalculateSessionLevel st sid).2).map (·.universe_level))
             sess.universe_level) != sess.universe_level,
           if (jsOrNat (((recalculateSessionLevel st sid).2).map (·.universe_level))
               sess.universe_level) != sess.universe_level
             then some sess.universe_level else none,
           if (jsOrNat (((recalculateSessionLevel st sid).2).map (·.universe_level))
               sess.universe_level) != sess.universe_level
             then some (jsOrNat (((recalculateSessionLevel st sid).2).map
               (·.universe_level)) sess.universe_level) else none⟩) := by
  unfold recalcHandler recalculateSessionLevel
  simp only [hsess, hact, ne_eq, not_true_eq_false, if_false]
  cases hse : (sessionPlayersOf st sid).isEmpty with
  | true =>
    simp only [hse, if_true, Option.map_none', Option.getD_none, jsOrNat_none,
      bne_self_eq_false, Bool.false_eq_true, if_false]
  | false =>
    simp only [hse, Bool.false_eq_true, if_false]
    by_cases hch : listMin ((sessionPlayersOf st sid).map
        (fun sp => getPlayerMaxLevel st sp.player_id)) = sess.universe_level
    · rw [if_neg (not_not_intro hch), if_pos hch]
      simp only [Option.map_some', Option.getD_some, jsOrNat_some_self,
        bne_self_eq_false, Bool.false_eq_true, if_false]
    · rw [if_pos hch, if_neg hch]
      have hfind : findSession (applySessionUpdate st sid (fun s =>
          { s with universe_level := listMin ((sessionPlayersOf st sid).map
              (fun sp => getPlayerMaxLevel st sp.player_id)) })) sid
          = (findSession st sid).map (fun s =>
          { s with universe_level := listMin ((sessionPlayersOf st sid).map
              (fun sp => getPlayerMaxLevel st sp.player_id)) }) :=
        findSession_applySessionUpdate st sid _ (fun s => rfl) (by rw [hsess]; rfl)
      rw [hsess] at hfind
      simp only [Option.map_some'] at hfind
      simp only [hfind, Option.map_some', Option.getD_some]
      have hpos : 1 ≤ listMin ((sessionPlayersOf st sid).map
          (fun sp => getPlayerMaxLevel st sp.player_id)) := by
        apply le_listMin
        · intro hmapnil
          rw [List.map_eq_nil_iff] at hmapnil
          rw [hmapnil] at hse
          cases hse
        · intro x hx
          obtain ⟨sp, _, hsp⟩ := List.mem_map.mp hx
          rw [← hsp]
          exact getPlayerMaxLevel_pos st sp.player_id
      rw [jsOrNat_some_of_pos _ _ hpos]
      have hbne : (listMin ((sessionPlayersOf st sid).map
          (fun sp => getPlayerMaxLevel st sp.player_id)) != sess.universe_level)
          = true := bne_iff_ne.mpr hch
      rw [hbne]
      simp only [if_true]

/-- Witness for C8 at a concrete store with one guest member in a level-3
active session (the recalculation lowers it to 1). -/
theorem C8_recalc_equals_join_recalc_witness :
    (findSession ⟨[⟨2, "ben", true⟩], ["BX"],
        [⟨10, "BX", 3, SessionStatus.active, 2, false⟩],
        [⟨10, 2, none, 0, none, false⟩], [], 20⟩ 10 =
      some ⟨10, "BX", 3, SessionStatus.active, 2, false⟩) ∧
    recalcHandler ⟨[⟨2, "ben", true⟩], ["BX"],
        [⟨10, "BX", 3, SessionStatus.active, 2, false⟩],
        [⟨10, 2, none, 0, none, false⟩], [], 20⟩ ⟨some 10, none⟩ =
      ((recalculateSessionLevel ⟨[⟨2, "ben", true⟩], ["BX"],
          [⟨10, "BX", 3, SessionStatus.active, 2, false⟩],
          [⟨10, 2, none, 0, none, false⟩], [], 20⟩ 10).1,
        RecalcOut.ok
          ⟨(((recalculateSessionLevel ⟨[⟨2, "ben", true⟩], ["BX"],
              [⟨10, "BX", 3, SessionStatus.active, 2, false⟩],
              [⟨10, 2, none, 0, none, false⟩], [], 20⟩ 10).2).getD
                ⟨10, "BX", 3, SessionStatus.active, 2, false⟩).universe_level,
           (jsOrNat (((recalculateSessionLevel ⟨[⟨2, "ben", true⟩], ["BX"],
              [⟨10, "BX", 3, SessionStatus.active, 2, false⟩],
              [⟨10, 2, none, 0, none, false⟩], [], 20⟩ 10).2).map
                (·.universe_level)) 3) != 3,
           if (jsOrNat (((recalculateSessionLevel ⟨[⟨2, "ben", true⟩], ["BX"],
              [⟨10, "BX", 3, SessionStatus.active, 2, false⟩],
              [⟨10, 2, none, 0, none, false⟩], [], 20⟩ 10).2).map
                (·.universe_level)) 3) != 3
             then some 3 else none,
           if (jsOrNat (((recalculateSessionLevel ⟨[⟨2, "ben", true⟩], ["BX"],
              [⟨10, "BX", 3, SessionStatus.active, 2, false⟩],
              [⟨10, 2, none, 0, none, false⟩], [], 20⟩ 10).2).map
                (·.universe_level)) 3) != 3
             then some (jsOrNat (((recalculateSessionLevel ⟨[⟨2, "ben", true⟩],
              ["BX"], [⟨10, "BX", 3, SessionStatus.active, 2, false⟩],
              [⟨10, 2, none, 0, none, false⟩], [], 20⟩ 10).2).map
                (·.universe_level)) 3) else none⟩) := by
  refine ⟨by decide, ?_⟩
  exact C8_recalc_equals_join_recalc _ 10 none
    ⟨10, "BX", 3, SessionStatus.active, 2, false⟩ (by decide) rfl

/-- Claim C9: the max-unlocked-level computation is total and never
propagates a store error: a failing player query, an absent player row, or a
failing progress query each yield 1; consequently, during level
recalculation, a member whose player row cannot be fetched contributes a cap
of 1 and the recalculated minimum becomes 1 (lowering any session level
above 1). -/
theorem C9_max_level_error_defaults :
    (∀ progressRes, getPlayerMaxLevelCore (Except.error ()) progressRes = 1) ∧
    (∀ g, getPlayerMaxLevelCore (Except.ok g) (Except.error ()) = 1) ∧
    (∀ (st : Store) (pid : Nat), findPlayer st pid = none →
      getPlayerMaxLevel st pid = 1) ∧
    (∀ (st : Store) (sid : Nat) (sp : SessionPlayer),
      sp ∈ sessionPlayersOf st sid → findPlayer st sp.player_id = none →
      sessionMinLevel st sid = 1) := by
  have habsent : ∀ (st : Store) (pid : Nat), findPlayer st pid = none →
      getPlayerMaxLevel st pid = 1 := by
    intro st pid h
    unfold getPlayerMaxLevel playerQuery
    rw [h]
    rfl
  refine ⟨fun _ => rfl, ?_, habsent, ?_⟩
  · intro g
    unfold getPlayerMaxLevelCore
    by_cases hg : g = true
    · simp [hg]
    · have hg' : g = false := by revert hg; cases g <;> simp
      simp [hg']
  · intro st sid sp hmem hnone
    unfold sessionMinLevel
    apply listMin_eq_one
    · exact List.mem_map.mpr ⟨sp, hmem, habsent st sp.player_id hnone⟩
    · intro x hx
      obtain ⟨q, _, hq⟩ := List.mem_map.mp hx
      rw [← hq]
      exact getPlayerMaxLevel_pos st q.player_id

/-- Witness for C9: a concrete store holding one membership row whose
player id (5) has no players row; the recalculated minimum is 1. -/
theorem C9_max_level_error_defaults_witness :
    ((⟨10, 5, none, 0, none, false⟩ : SessionPlayer) ∈
      sessionPlayersOf ⟨[], [], [], [⟨10, 5, none, 0, none, false⟩], [], 20⟩ 10 ∧
     findPlayer ⟨[], [], [], [⟨10, 5, none, 0, none, false⟩], [], 20⟩ 5 = none) ∧
    sessionMinLevel ⟨[], [], [], [⟨10, 5, none, 0, none, false⟩], [], 20⟩ 10 = 1 := by
  refine ⟨⟨by decide, by decide⟩, ?_⟩
  exact C9_max_level_error_defaults.2.2.2
    ⟨[], [], [], [⟨10, 5, none, 0, none, false⟩], [], 20⟩ 10
    ⟨10, 5, none, 0, none, false⟩ (by decide) (by decide)

/-- Claim C6: under the schema's foreign key on sessions.box_id (every
session's box is registered in game_boxes), a create call that fails with
409 Conflict because the box already has an active session applies no state
change: the post-store equals the pre-store. -/
theorem C6_create_conflict_unchanged (st : Store) (b : CreateBody)
    (st' : Store) (msg : String) (hfk : boxFkInv st)
    (hcall : createHandler st b = (st', CreateOut.err 409 msg)) :
    st' = st := by
  obtain ⟨boxId, lvlOpt, nameOpt, colOpt, pidOpt⟩ := b
  simp only [createHandler] at hcall
  cases boxId with
  | none => simp [Prod.ext_iff] at hcall
  | some box =>
  cases lvlOpt with
  | none => simp [Prod.ext_iff] at hcall
  | some lvl =>
  cases nameOpt with
  | none =>
    dsimp only at hcall
    split at hcall <;> simp [Prod.ext_iff] at hcall
  | some name =>
  dsimp only at hcall
  split at hcall
  · simp [Prod.ext_iff] at hcall
  · split at hcall
    · simp [Prod.ext_iff] at hcall
    · by_cases hin : st.game_boxes.contains box
      · rw [if_pos hin] at hcall
        split at hcall
        · simp [Prod.ext_iff] at hcall
          exact hcall.1.symm
        · split at hcall <;> simp [Prod.ext_iff] at hcall
      · rw [if_neg hin] at hcall
        split at hcall
        · next hconf =>
          exfalso
          obtain ⟨s, hs, hpred⟩ := List.any_eq_true.mp hconf
          have hs' : s ∈ st.sessions := hs
          have hbox : s.box_id ∈ st.game_boxes := hfk s hs'
          have heqb : s.box_id = box :=
            eq_of_beq ((Bool.and_eq_true _ _).mp hpred).1
          rw [heqb] at hbox
          exact hin (List.elem_eq_true_of_mem hbox)
        · split at hcall <;> simp [Prod.ext_iff] at hcall

/-- Whenever the completion transition runs on a session that exists, it
reports success (every internal leaf returns an ok response). -/
theorem submitCompletionStep_ok (st1 : Store) (sid : Nat) (sess : Session)
    (ap : List SessionPlayer) (cnt : Nat)
    (h : (findSession st1 sid).isSome) :
    ∃ r, (submitCompletionStep st1 sid sess ap cnt).2 = SubmitOut.ok r := by
  unfold submitCompletionStep
  obtain ⟨s0, hs0⟩ := Option.isSome_iff_exists.mp h
  have hfind := findSession_applySessionUpdate st1 sid
    (fun s => { s with status := SessionStatus.completed, ended := true })
    (fun s => rfl) h
  rw [hs0] at hfind
  simp only [Option.map_some'] at hfind
  simp only [hfind, ne_eq, not_true_eq_false, if_false]
  split
  · split
    · exact ⟨_, rfl⟩
    · exact ⟨_, rfl⟩
  · exact ⟨_, rfl⟩

/-- Claim C7 counterexample: on a two-member active session, a member's
submit with finalNn = -5 is accepted (ok response) and mutates the
membership row, contradicting the claim that negative scores are rejected
with a validation error leaving the rows unchanged. -/
theorem C7_negative_score_accepted_counterexample :
    (submitScoreHandler ⟨[⟨1, "a", true⟩, ⟨2, "b", true⟩], ["BX"],
        [⟨10, "BX", 1, SessionStatus.active, 1, false⟩],
        [⟨10, 1, none, 0, none, false⟩, ⟨10, 2, none, 0, none, false⟩], [], 20⟩
        ⟨some 10, some 1, some (-5), none, none⟩).2 =
      SubmitOut.ok ⟨false, 1, 2, false, none⟩ ∧
    (submitScoreHandler ⟨[⟨1, "a", true⟩, ⟨2, "b", true⟩], ["BX"],
        [⟨10, "BX", 1, SessionStatus.active, 1, false⟩],
        [⟨10, 1, none, 0, none, false⟩, ⟨10, 2, none, 0, none, false⟩], [], 20⟩
        ⟨some 10, some 1, some (-5), none, none⟩).1.session_players ≠
      [⟨10, 1, none, 0, none, false⟩, ⟨10, 2, none, 0, none, false⟩] := by
  refine ⟨by decide, by decide⟩

/-- Claim C7 amended: a submitScore request on an existing active session by
a member (with a valid color) is accepted whenever finalNn is present —
including any negative value, which is never validated — and is rejected
with a 400 validation error leaving the store unchanged only when finalNn is
missing (null/undefined). -/
theorem C7_submit_accepts_any_present_score (st : Store) (b : SubmitBody)
    (sid pid : Nat) (sess : Session) (sp : SessionPlayer)
    (hsid : b.sessionId = some sid) (hpid : b.playerId = some pid)
    (hcol : colorCheckFails b.color = false)
    (hsess : findSession st sid = some sess)
    (hact : sess.status = SessionStatus.active)
    (hmem : findSessionPlayer st sid pid = some sp) :
    (∀ v : Int, b.finalNn = some v →
      ∃ r, (submitScoreHandler st b).2 = SubmitOut.ok r) ∧
    (b.finalNn = none →
      submitScoreHandler st b = (st, SubmitOut.err 400 "finalNn is required")) := by
  constructor
  · intro v hv
    unfold submitScoreHandler
    simp only [hsid, hpid, hv, hcol, Bool.false_eq_true, if_false, hsess, hact,
      ne_eq, not_true_eq_false, hmem]
    split
    · apply submitCompletionStep_ok
      show (findSession st sid).isSome
      rw [hsess]
      rfl
    · exact ⟨_, rfl⟩
  · intro hnone
    unfold submitScoreHandler
    simp only [hsid, hpid, hnone]

/-- Witness for the amended C7: the negative submission of the
counterexample store is accepted through the general theorem. -/
theorem C7_submit_accepts_any_present_score_witness :
    ∃ r, (submitScoreHandler ⟨[⟨1, "a", true⟩, ⟨2, "b", true⟩], ["BX"],
        [⟨10, "BX", 1, SessionStatus.active, 1, false⟩],
        [⟨10, 1, none, 0, none, false⟩, ⟨10, 2, none, 0, none, false⟩], [], 20⟩
        ⟨some 10, some 1, some (-5), none, none⟩).2 = SubmitOut.ok r :=
  (C7_submit_accepts_any_present_score
    ⟨[⟨1, "a", true⟩, ⟨2, "b", true⟩], ["BX"],
      [⟨10, "BX", 1, SessionStatus.active, 1, false⟩],
      [⟨10, 1, none, 0, none, false⟩, ⟨10, 2, none, 0, none, false⟩], [], 20⟩
    ⟨some 10, some 1, some (-5), none, none⟩ 10 1
    ⟨10, "BX", 1, SessionStatus.active, 1, false⟩
    ⟨10, 1, none, 0, none, false⟩ rfl rfl (by decide) (by decide) rfl
    (by decide)).1 (-5) rfl

theorem voteMark_session_id (sid pid : Nat) (sp : SessionPlayer) :
    (voteMark sid pid sp).session_id = sp.session_id := by
  unfold voteMark
  split <;> rfl

theorem voteMark_final_nn (sid pid : Nat) (sp : SessionPlayer) :
    (voteMark sid pid sp).final_nn = sp.final_nn := by
  unfold voteMark
  split <;> rfl

theorem submitMark_session_id (b : SubmitBody) (fnn : Int) (sid pid : Nat)
    (sp : SessionPlayer) :
    (submitMark b fnn sid pid sp).session_id = sp.session_id := by
  unfold submitMark submitRowUpdate
  split <;> (try split) <;> (try split) <;> rfl

theorem submitMark_player_id (b : SubmitBody) (fnn : Int) (sid pid : Nat)
    (sp : SessionPlayer) :
    (submitMark b fnn sid pid sp).player_id = sp.player_id := by
  unfold submitMark submitRowUpdate
  split <;> (try split) <;> (try split) <;> rfl

/-- Filtering a session's rows commutes with a row-map that does not move
rows between sessions. -/
theorem sessionPlayersOf_map_update (st : Store) (sid : Nat)
    (g : SessionPlayer → SessionPlayer)
    (hg : ∀ sp, (g sp).session_id = sp.session_id) :
    sessionPlayersOf { st with session_players := (st.session_players.map g) } sid
      = (sessionPlayersOf st sid).map g := by
  unfold sessionPlayersOf
  exact filter_map_keep (fun sp => sp.session_id == sid) g
    (fun sp => by simp only [hg]) st.session_players

/-- A fold of the trigger body over rows that all lack a final score leaves
the journal unchanged. -/
theorem trigger_fold_all_none (rows : List SessionPlayer) (j : List JournalEntry)
    (lvl sid : Nat) (h : ∀ sp ∈ rows, sp.final_nn = none) :
    rows.foldl
      (fun acc sp =>
        match sp.final_nn with
        | some s => triggerUpsert acc sp.player_id lvl s sid
        | none => acc) j = j := by
  induction rows generalizing j with
  | nil => rfl
  | cons a t ih =>
    have ha : a.final_nn = none := h a (List.mem_cons_self a t)
    have ht : ∀ sp ∈ t, sp.final_nn = none :=
      fun sp hsp => h sp (List.mem_cons_of_mem a hsp)
    simp only [List.foldl_cons, ha]
    exact ih j ht

/-- A session update (including one that fires the completion trigger)
leaves the journal unchanged when every member of the session lacks a final
score. -/
theorem applySessionUpdate_journal_of_members_null (st : Store) (sid : Nat)
    (f : Session → Session) (hid : ∀ s, (f s).id = s.id)
    (hnull : ∀ sp ∈ sessionPlayersOf st sid, sp.final_nn = none) :
    (applySessionUpdate st sid f).progress_journal = st.progress_journal := by
  unfold applySessionUpdate
  cases hfound : findSession st sid with
  | none => rfl
  | some old =>
    dsimp only
    split
    · unfold triggerJournal
      dsimp only
      have hoid : old.id = sid := by
        have h' : st.sessions.find? (fun s => s.id == sid) = some old := hfound
        have hb : (old.id == sid) = true := by simpa using List.find?_some h'
        exact eq_of_beq hb
      have hfid : (f old).id = sid := by rw [hid old, hoid]
      rw [show sessionPlayersOf { st with sessions := (st.sessions.map
          (fun s => if s.id == sid then f s else s)) } (f old).id
          = sessionPlayersOf st sid from by
        unfold sessionPlayersOf
        rw [hfid]]
      exact trigger_fold_all_none _ _ _ _ hnull
    · rfl

/-- Claim C3 counterexample: a two-member active session where member 1 has
already submitted final score 7 and voted; when member 2 votes, the session
completes via voteEnd and the schema trigger writes a ProgressJournal row
for member 1, so the journal is not what it was before the vote. -/
theorem C3_vote_end_writes_journal_counterexample :
    (voteEndHandler ⟨[⟨1, "a", true⟩, ⟨2, "b", true⟩], ["BX"],
        [⟨10, "BX", 5, SessionStatus.active, 1, false⟩],
        [⟨10, 1, some "gray", 0, some 7, true⟩, ⟨10, 2, some "pink", 0, none, false⟩],
        [], 20⟩ ⟨some 10, some 2⟩).2 = VoteOut.ok ⟨true, none, none⟩ ∧
    (voteEndHandler ⟨[⟨1, "a", true⟩, ⟨2, "b", true⟩], ["BX"],
        [⟨10, "BX", 5, SessionStatus.active, 1, false⟩],
        [⟨10, 1, some "gray", 0, some 7, true⟩, ⟨10, 2, some "pink", 0, none, false⟩],
        [], 20⟩ ⟨some 10, some 2⟩).1.progress_journal ≠ ([] : List JournalEntry) := by
  refine ⟨by decide, by decide⟩

/-- Claim C3 amended: a voteEnd call never writes the ProgressJournal for
members without a final score; in particular, when no member of the session
has submitted a final score (Scenario E), the journal after the vote — even
one that completes the session — is exactly what it was before.  (When some
member has a non-null final score, the schema trigger does upsert that
member's row on the vote-completion path, as the counterexample shows.) -/
theorem C3_vote_end_journal_unchanged (st : Store) (sid pid : Nat)
    (hnull : ∀ sp ∈ sessionPlayersOf st sid, sp.final_nn = none) :
    (voteEndHandler st ⟨some sid, some pid⟩).1.progress_journal =
      st.progress_journal := by
  unfold voteEndHandler
  dsimp only
  cases hfound : findSession st sid with
  | none => rfl
  | some sess =>
    dsimp only
    by_cases hact : sess.status = SessionStatus.active
    · rw [if_neg (not_not_intro hact)]
      cases hm : findSessionPlayer st sid pid with
      | none => rfl
      | some entry =>
        dsimp only
        split
        · refine (applySessionUpdate_journal_of_members_null _ sid
            (fun s => { s with status := SessionStatus.completed, ended := true })
            (fun s => rfl) ?_).trans ?_
          · intro sp hsp
            rw [sessionPlayersOf_map_update st sid (voteMark sid pid)
              (voteMark_session_id sid pid)] at hsp
            obtain ⟨q, hq, hmap⟩ := List.mem_map.mp hsp
            rw [← hmap, voteMark_final_nn]
            exact hnull q hq
          · rfl
        · rfl
    · rw [if_pos hact]

/-- Witness for the amended C3 on Scenario E: a two-member session with no
submitted scores; after the completing vote the journal is unchanged. -/
theorem C3_vote_end_journal_unchanged_witness :
    ((∀ sp ∈ sessionPlayersOf ⟨[⟨1, "a", true⟩, ⟨2, "b", true⟩], ["BX"],
        [⟨10, "BX", 5, SessionStatus.active, 1, false⟩],
        [⟨10, 1, some "gray", 0, none, true⟩, ⟨10, 2, some "pink", 0, none, false⟩],
        [⟨9, 2, 4, none⟩], 20⟩ 10, sp.final_nn = none) ∧
      (voteEndHandler ⟨[⟨1, "a", true⟩, ⟨2, "b", true⟩], ["BX"],
        [⟨10, "BX", 5, SessionStatus.active, 1, false⟩],
        [⟨10, 1, some "gray", 0, none, true⟩, ⟨10, 2, some "pink", 0, none, false⟩],
        [⟨9, 2, 4, none⟩], 20⟩ ⟨some 10, some 2⟩).2 = VoteOut.ok ⟨true, none, none⟩) ∧
    (voteEndHandler ⟨[⟨1, "a", true⟩, ⟨2, "b", true⟩], ["BX"],
        [⟨10, "BX", 5, SessionStatus.active, 1, false⟩],
        [⟨10, 1, some "gray", 0, none, true⟩, ⟨10, 2, some "pink", 0, none, false⟩],
        [⟨9, 2, 4, none⟩], 20⟩ ⟨some 10, some 2⟩).1.progress_journal =
      [⟨9, 2, 4, none⟩] := by
  refine ⟨⟨by decide, by decide⟩, ?_⟩
  exact C3_vote_end_journal_unchanged
    ⟨[⟨1, "a", true⟩, ⟨2, "b", true⟩], ["BX"],
      [⟨10, "BX", 5, SessionStatus.active, 1, false⟩],
      [⟨10, 1, some "gray", 0, none, true⟩, ⟨10, 2, some "pink", 0, none, false⟩],
      [⟨9, 2, 4, none⟩], 20⟩ 10 2 (by decide)

/-! Per-step lookup lemmas for the two journal upserts (the SQL trigger's
ON CONFLICT upsert and the JS loop's conditional update). -/

theorem le_combineBest (old : Option Int) (s : Int) : s ≤ combineBest old s := by
  cases old with
  | none => exact le_refl s
  | some o => exact le_max_right o s

theorem jlookup_triggerUpsert_other (j : List JournalEntry) (q lvl : Nat)
    (s : Int) (sid' p l : Nat) (h : ¬(p = q ∧ l = lvl)) :
    jlookup (triggerUpsert j q lvl s sid') p l = jlookup j p l := by
  unfold triggerUpsert
  cases hf : j.find? (fun e => e.player_id == q && e.universe_level == lvl) with
  | none =>
    unfold jlookup
    rw [List.find?_append]
    have hkey : (((q == p) && (lvl == l)) : Bool) = false := by
      by_cases hq : q = p
      · by_cases hl : lvl = l
        · exact absurd ⟨hq.symm, hl.symm⟩ h
        · simp [hq, hl]
      · simp [hq]
    cases hp : j.find? (fun e => e.player_id == p && e.universe_level == l) with
    | none =>
      simp [List.find?_cons, hkey]
    | some e =>
      simp
  | some e0 =>
    unfold jlookup
    rw [find?_map_keep (fun e => e.player_id == p && e.universe_level == l)
      (fun e => if e.player_id == q && e.universe_level == lvl then
        { e with best_nn := max e.best_nn s,
                 session_id := if e.best_nn < s then some sid' else e.session_id }
      else e)
      (fun x => by dsimp only; split <;> rfl) j]
    cases hp : j.find? (fun e => e.player_id == p && e.universe_level == l) with
    | none => rfl
    | some e =>
      have hkey : (e.player_id == p && e.universe_level == l) = true := by
        simpa using List.find?_some hp
      have hep : e.player_id = p := eq_of_beq ((Bool.and_eq_true _ _).mp hkey).1
      have hel : e.universe_level = l := eq_of_beq ((Bool.and_eq_true _ _).mp hkey).2
      have hcond : ((e.player_id == q && e.universe_level == lvl) : Bool) = false := by
        by_cases hq : e.player_id = q
        · by_cases hl : e.universe_level = lvl
          · exact absurd ⟨by rw [← hep, hq], by rw [← hel, hl]⟩ h
          · simp [hq, hl]
        · simp [hq]
      simp only [Option.map_some', hcond, Bool.false_eq_true, if_false]

theorem jlookup_triggerUpsert_self (j : List JournalEntry) (q lvl : Nat)
    (s : Int) (sid' : Nat) :
    jlookup (triggerUpsert j q lvl s sid') q lvl
      = some (combineBest (jlookup j q lvl) s) := by
  unfold triggerUpsert
  cases hf : j.find? (fun e => e.player_id == q && e.universe_level == lvl) with
  | none =>
    unfold jlookup combineBest
    rw [List.find?_append, hf]
    simp [List.find?_cons]
  | some e0 =>
    unfold jlookup combineBest
    rw [find?_map_keep (fun e => e.player_id == q && e.universe_level == lvl)
      (fun e => if e.player_id == q && e.universe_level == lvl then
        { e with best_nn := max e.best_nn s,
                 session_id := if e.best_nn < s then some sid' else e.session_id }
      else e)
      (fun x => by dsimp only; split <;> rfl) j]
    rw [hf]
    have hkey : (e0.player_id == q && e0.universe_level == lvl) = true := by
      simpa using List.find?_some hf
    simp only [Option.map_some', hkey, if_true]

theorem jsJournalStep_final_none (lvl : Nat) (j : List JournalEntry)
    (sp : SessionPlayer) (h : sp.final_nn = none) :
    jsJournalStep lvl j sp = j := by
  unfold jsJournalStep
  rw [h]

theorem jsJournalStep_other (lvl : Nat) (j : List JournalEntry)
    (sp : SessionPlayer) (s : Int) (p l : Nat) (hs : sp.final_nn = some s)
    (h : ¬(p = sp.player_id ∧ l = lvl)) :
    jlookup (jsJournalStep lvl j sp) p l = jlookup j p l := by
  unfold jsJournalStep
  rw [hs]
  cases hf : j.find? (fun e => e.player_id == sp.player_id && e.universe_level == lvl) with
  | none =>
    unfold jlookup
    rw [List.find?_append]
    have hkey : (((sp.player_id == p) && (lvl == l)) : Bool) = false := by
      by_cases hq : sp.player_id = p
      · by_cases hl : lvl = l
        · exact absurd ⟨hq.symm, hl.symm⟩ h
        · simp [hq, hl]
      · simp [hq]
    cases hp : j.find? (fun e => e.player_id == p && e.universe_level == l) with
    | none =>
      simp [List.find?_cons, hkey]
    | some e =>
      simp
  | some ex =>
    dsimp only
    split
    · unfold jlookup
      rw [find?_map_keep (fun e => e.player_id == p && e.universe_level == l)
        (fun e => if e.player_id == sp.player_id && e.universe_level == lvl then
          { e with best_nn := s } else e)
        (fun x => by dsimp only; split <;> rfl) j]
      cases hp : j.find? (fun e => e.player_id == p && e.universe_level == l) with
      | none => rfl
      | some e =>
        have hkey : (e.player_id == p && e.universe_level == l) = true := by
          simpa using List.find?_some hp
        have hep : e.player_id = p := eq_of_beq ((Bool.and_eq_true _ _).mp hkey).1
        have hel : e.universe_level = l := eq_of_beq ((Bool.and_eq_true _ _).mp hkey).2
        have hcond : ((e.player_id == sp.player_id && e.universe_level == lvl) : Bool)
            = false := by
          by_cases hq : e.player_id = sp.player_id
          · by_cases hl : e.universe_level = lvl
            · exact absurd ⟨by rw [← hep, hq], by rw [← hel, hl]⟩ h
            · simp [hq, hl]
          · simp [hq]
        simp only [Option.map_some', hcond, Bool.false_eq_true, if_false]
    · rfl

theorem jsJournalStep_self (lvl : Nat) (j : List JournalEntry)
    (sp : SessionPlayer) (s : Int) (hs : sp.final_nn = some s) :
    jlookup (jsJournalStep lvl j sp) sp.player_id lvl
      = some (combineBest (jlookup j sp.player_id lvl) s) := by
  unfold jsJournalStep
  rw [hs]
  cases hf : j.find? (fun e => e.player_id == sp.player_id && e.universe_level == lvl) with
  | none =>
    unfold jlookup combineBest
    rw [List.find?_append, hf]
    simp [List.find?_cons]
  | some ex =>
    dsimp only
    have hkey : (ex.player_id == sp.player_id && ex.universe_level == lvl) = true := by
      simpa using List.find?_some hf
    split
    · next hlt =>
      unfold jlookup combineBest
      rw [find?_map_keep (fun e => e.player_id == sp.player_id && e.universe_level == lvl)
        (fun e => if e.player_id == sp.player_id && e.universe_level == lvl then
          { e with best_nn := s } else e)
        (fun x => by dsimp only; split <;> rfl) j]
      rw [hf]
      simp only [Option.map_some', hkey, if_true]
      rw [max_eq_right (le_of_lt hlt)]
    · next hge =>
      unfold jlookup combineBest
      rw [hf]
      simp only [Option.map_some']
      rw [max_eq_left (by omega)]

theorem jsJournalStep_keep (lvl : Nat) (j : List JournalEntry)
    (sp : SessionPlayer) (s : Int) (b : Int) (hs : sp.final_nn = some s)
    (hl : jlookup j sp.player_id lvl = some b) (hle : s ≤ b) :
    jsJournalStep lvl j sp = j := by
  unfold jsJournalStep
  unfold jlookup at hl
  cases hf : j.find? (fun e => e.player_id == sp.player_id && e.universe_level == lvl) with
  | none =>
    rw [hf] at hl
    simp at hl
  | some ex =>
    rw [hf] at hl
    simp only [Option.map_some', Option.some.injEq] at hl
    rw [hs]
    dsimp only
    rw [if_neg (by omega)]

/-! Fold-level lemmas: the trigger fold and the JS loop over a member list. -/

theorem journalLe_refl (j : List JournalEntry) : journalLe j j :=
  fun _ _ x hx => ⟨x, hx, le_refl x⟩

theorem journalLe_trans {a b c : List JournalEntry}
    (h1 : journalLe a b) (h2 : journalLe b c) : journalLe a c := by
  intro pid lvl x hx
  obtain ⟨y, hy, hxy⟩ := h1 pid lvl x hx
  obtain ⟨z, hz, hyz⟩ := h2 pid lvl y hy
  exact ⟨z, hz, le_trans hxy hyz⟩

theorem journalLe_triggerUpsert (j : List JournalEntry) (q lvl : Nat)
    (s : Int) (sid' : Nat) : journalLe j (triggerUpsert j q lvl s sid') := by
  intro p l x hx
  by_cases h : p = q ∧ l = lvl
  · obtain ⟨hp, hl⟩ := h
    subst hp
    subst hl
    rw [jlookup_triggerUpsert_self, hx]
    exact ⟨max x s, rfl, le_max_left x s⟩
  · rw [jlookup_triggerUpsert_other j q lvl s sid' p l h]
    exact ⟨x, hx, le_refl x⟩

theorem journalLe_jsStep (lvl : Nat) (j : List JournalEntry)
    (sp : SessionPlayer) : journalLe j (jsJournalStep lvl j sp) := by
  cases hs : sp.final_nn with
  | none =>
    rw [jsJournalStep_final_none lvl j sp hs]
    exact journalLe_refl j
  | some s =>
    intro p l x hx
    by_cases h : p = sp.player_id ∧ l = lvl
    · obtain ⟨hp, hl⟩ := h
      rw [hp, hl] at hx ⊢
      rw [jsJournalStep_self lvl j sp s hs, hx]
      exact ⟨max x s, rfl, le_max_left x s⟩
    · rw [jsJournalStep_other lvl j sp s p l hs h]
      exact ⟨x, hx, le_refl x⟩

theorem journalLe_trigger_fold (ps : List SessionPlayer) (j : List JournalEntry)
    (lvl sid : Nat) :
    journalLe j (ps.foldl
      (fun acc sp =>
        match sp.final_nn with
        | some s => triggerUpsert acc sp.player_id lvl s sid
        | none => acc) j) := by
  induction ps generalizing j with
  | nil => exact journalLe_refl j
  | cons a t ih =>
    simp only [List.foldl_cons]
    refine journalLe_trans ?_ (ih _)
    cases ha : a.final_nn with
    | none => simp only [ha]; exact journalLe_refl j
    | some s => simp only [ha]; exact journalLe_triggerUpsert j a.player_id lvl s sid

theorem journalLe_js_fold (ps : List SessionPlayer) (j : List JournalEntry)
    (lvl : Nat) : journalLe j (ps.foldl (jsJournalStep lvl) j) := by
  induction ps generalizing j with
  | nil => exact journalLe_refl j
  | cons a t ih =>
    simp only [List.foldl_cons]
    exact journalLe_trans (journalLe_jsStep lvl j a) (ih _)

theorem jlookup_trigger_fold_other (ps : List SessionPlayer)
    (j : List JournalEntry) (lvl sid p l : Nat)
    (h : ∀ sp ∈ ps, ¬(p = sp.player_id ∧ l = lvl)) :
    jlookup (ps.foldl
      (fun acc sp =>
        match sp.final_nn with
        | some s => triggerUpsert acc sp.player_id lvl s sid
        | none => acc) j) p l = jlookup j p l := by
  induction ps generalizing j with
  | nil => rfl
  | cons a t ih =>
    simp only [List.foldl_cons]
    rw [ih _ (fun sp hsp => h sp (List.mem_cons_of_mem a hsp))]
    cases ha : a.final_nn with
    | none => simp only [ha]
    | some s =>
      simp only [ha]
      exact jlookup_triggerUpsert_other j a.player_id lvl s sid p l
        (h a (List.mem_cons_self a t))

theorem jlookup_trigger_fold_self (ps : List SessionPlayer)
    (j : List JournalEntry) (lvl sid : Nat) (sp : SessionPlayer) (s : Int)
    (hdis : ps.Pairwise (fun a b => a.player_id ≠ b.player_id))
    (hmem : sp ∈ ps) (hs : sp.final_nn = some s) :
    jlookup (ps.foldl
      (fun acc sp =>
        match sp.final_nn with
        | some s => triggerUpsert acc sp.player_id lvl s sid
        | none => acc) j) sp.player_id lvl
      = some (combineBest (jlookup j sp.player_id lvl) s) := by
  induction ps generalizing j with
  | nil => cases hmem
  | cons a t ih =>
    simp only [List.foldl_cons]
    rcases List.mem_cons.mp hmem with heq | hmem'
    · subst heq
      rw [jlookup_trigger_fold_other t _ lvl sid sp.player_id lvl
        (fun q hq => fun hand =>
          (List.pairwise_cons.mp hdis).1 q hq hand.1)]
      simp only [hs]
      exact jlookup_triggerUpsert_self j sp.player_id lvl s sid
    · have hne : a.player_id ≠ sp.player_id :=
        (List.pairwise_cons.mp hdis).1 sp hmem'
      have step_other : ∀ (j' : List JournalEntry),
          jlookup (match a.final_nn with
            | some sa => triggerUpsert j' a.player_id lvl sa sid
            | none => j') sp.player_id lvl = jlookup j' sp.player_id lvl := by
        intro j'
        cases ha : a.final_nn with
        | none => rfl
        | some sa =>
          exact jlookup_triggerUpsert_other j' a.player_id lvl sa sid
            sp.player_id lvl (fun hand => hne hand.1.symm)
      rw [ih _ (List.pairwise_cons.mp hdis).2 hmem', step_other j]

theorem js_fold_keep (ps : List SessionPlayer) (j : List JournalEntry)
    (lvl : Nat)
    (h : ∀ sp ∈ ps, ∀ s : Int, sp.final_nn = some s →
      ∃ b, jlookup j sp.player_id lvl = some b ∧ s ≤ b) :
    ps.foldl (jsJournalStep lvl) j = j := by
  induction ps with
  | nil => rfl
  | cons a t ih =>
    simp only [List.foldl_cons]
    have hstep : jsJournalStep lvl j a = j := by
      cases ha : a.final_nn with
      | none => exact jsJournalStep_final_none lvl j a ha
      | some s =>
        obtain ⟨b, hb, hsb⟩ := h a (List.mem_cons_self a t) s ha
        exact jsJournalStep_keep lvl j a s b ha hb hsb
    rw [hstep]
    exact ih (fun sp hsp => h sp (List.mem_cons_of_mem a hsp))

/-- Net effect on the journal of the completion transition's two phases (the
SQL trigger fold followed by the JS loop) at a member's key: the stored best
becomes the greater of the previous best and the member's final score. -/
theorem completion_fold_bestNn (ps : List SessionPlayer)
    (j : List JournalEntry) (lvl sid : Nat) (sp : SessionPlayer) (s : Int)
    (hdis : ps.Pairwise (fun a b => a.player_id ≠ b.player_id))
    (hmem : sp ∈ ps) (hs : sp.final_nn = some s) :
    jlookup (ps.foldl (jsJournalStep lvl)
      (ps.foldl
        (fun acc q =>
          match q.final_nn with
          | some sq => triggerUpsert acc q.player_id lvl sq sid
          | none => acc) j)) sp.player_id lvl
      = some (combineBest (jlookup j sp.player_id lvl) s) := by
  rw [js_fold_keep ps _ lvl (fun q hq sq hsq =>
    ⟨combineBest (jlookup j q.player_id lvl) sq,
      jlookup_trigger_fold_self ps j lvl sid q sq hdis hq hsq,
      le_combineBest _ sq⟩)]
  exact jlookup_trigger_fold_self ps j lvl sid sp s hdis hmem hs

theorem insertSession_ok_inv (st : Store) (box : String) (lvl host : Nat)
    (st' : Store) (sess : Session)
    (h : insertSession st box lvl host = Except.ok (st', sess)) :
    st' = { st with sessions := st.sessions ++ [sess], next_id := st.next_id + 1 } ∧
    sess = ⟨st.next_id, box, lvl, SessionStatus.active, host, false⟩ := by
  unfold insertSession at h
  split at h
  · cases h
  · simp only [Except.ok.injEq, Prod.mk.injEq] at h
    obtain ⟨h1, h2⟩ := h
    constructor
    · rw [← h1, ← h2]
    · exact h2.symm

theorem applySessionUpdate_journal_mono (st : Store) (sid : Nat)
    (f : Session → Session) :
    journalLe st.progress_journal (applySessionUpdate st sid f).progress_journal := by
  unfold applySessionUpdate
  cases hfound : findSession st sid with
  | none => exact journalLe_refl _
  | some old =>
    dsimp only
    split
    · unfold triggerJournal
      exact journalLe_trigger_fold _ _ _ _
    · exact journalLe_refl _

theorem submitCompletionStep_journal_mono (st1 : Store) (sid : Nat)
    (sess : Session) (ap : List SessionPlayer) (cnt : Nat) :
    journalLe st1.progress_journal
      (submitCompletionStep st1 sid sess ap cnt).1.progress_journal := by
  unfold submitCompletionStep
  dsimp only
  have h2 := applySessionUpdate_journal_mono st1 sid
    (fun s => { s with status := SessionStatus.completed, ended := true })
  cases hv : findSession (applySessionUpdate st1 sid
      (fun s => { s with status := SessionStatus.completed, ended := true })) sid with
  | none => exact h2
  | some verified =>
    dsimp only
    split
    · exact h2
    · have h3 := journalLe_js_fold ap (applySessionUpdate st1 sid
        (fun s => { s with status := SessionStatus.completed, ended := true })).progress_journal
        sess.universe_level
      split
      · split
        · next heq => exact journalLe_trans h2 h3
        · next st4 newSess heq =>
          obtain ⟨h4, _⟩ := insertSession_ok_inv _ _ _ _ _ _ heq
          exact journalLe_trans h2 (by rw [h4]; exact h3)
      · exact journalLe_trans h2 h3

theorem submitScoreHandler_journal_mono (st : Store) (b : SubmitBody) :
    journalLe st.progress_journal (submitScoreHandler st b).1.progress_journal := by
  unfold submitScoreHandler
  rcases hsid : b.sessionId with _ | sid
  · exact journalLe_refl _
  · rcases hpid : b.playerId with _ | pid
    · exact journalLe_refl _
    · rcases hfn : b.finalNn with _ | fnn
      · exact journalLe_refl _
      · dsimp only
        split
        · exact journalLe_refl _
        · cases hfs : findSession st sid with
          | none => exact journalLe_refl _
          | some sess =>
            dsimp only
            split
            · exact journalLe_refl _
            · cases hm : findSessionPlayer st sid pid with
              | none => exact journalLe_refl _
              | some sp =>
                dsimp only
                split
                · exact submitCompletionStep_journal_mono
                    { st with session_players :=
                      (st.session_players.map (submitMark b fnn sid pid)) } sid sess _ _
                · exact journalLe_refl _

theorem applySubmitSeq_journal_mono (reqs : List SubmitBody) (st : Store) :
    journalLe st.progress_journal (applySubmitSeq st reqs).progress_journal := by
  induction reqs generalizing st with
  | nil => exact journalLe_refl _
  | cons b t ih =>
    exact journalLe_trans (submitScoreHandler_journal_mono st b)
      (ih (submitScoreHandler st b).1)

/-- When the session row exists and is not yet completed, the completion
update's journal is exactly the trigger fold over the session's members at
the session's level. -/
theorem applySessionUpdate_journal_fires (st : Store) (sid : Nat)
    (f : Session → Session) (old : Session)
    (hfound : findSession st sid = some old)
    (hid : ∀ s, (f s).id = s.id)
    (hlvl : ∀ s, (f s).universe_level = s.universe_level)
    (hfire : (f old).status = SessionStatus.completed ∧
      old.status ≠ SessionStatus.completed) :
    (applySessionUpdate st sid f).progress_journal
      = (sessionPlayersOf st sid).foldl
          (fun acc q =>
            match q.final_nn with
            | some sq => triggerUpsert acc q.player_id old.universe_level sq sid
            | none => acc) st.progress_journal := by
  unfold applySessionUpdate
  rw [hfound]
  dsimp only
  rw [if_pos hfire]
  unfold triggerJournal
  dsimp only
  have hoid : old.id = sid := by
    have h' : st.sessions.find? (fun s => s.id == sid) = some old := hfound
    have hb : (old.id == sid) = true := by simpa using List.find?_some h'
    exact eq_of_beq hb
  rw [show (f old).id = sid from by rw [hid old, hoid],
    show (f old).universe_level = old.universe_level from hlvl old]
  rfl

/-- The net journal effect of the completion transition at a member's key:
the trigger fold writes the upsert and the JS loop then leaves it alone, so
the stored best becomes the greater of the previous best and the member's
final score (or the final score when no row existed). -/
theorem submitCompletionStep_bestNn (st1 : Store) (sid : Nat) (sess : Session)
    (ap : List SessionPlayer) (cnt : Nat)
    (hsess1 : findSession st1 sid = some sess)
    (hnc : sess.status ≠ SessionStatus.completed)
    (hap : ap = sessionPlayersOf st1 sid)
    (hdis : ap.Pairwise (fun a b => a.player_id ≠ b.player_id))
    (sp : SessionPlayer) (s : Int) (hmem : sp ∈ ap) (hs : sp.final_nn = some s) :
    bestNn (submitCompletionStep st1 sid sess ap cnt).1 sp.player_id
        sess.universe_level
      = some (combineBest (bestNn st1 sp.player_id sess.universe_level) s) := by
  have hjq : (applySessionUpdate st1 sid (fun s =>
      { s with status := SessionStatus.completed, ended := true })).progress_journal
      = ap.foldl
          (fun acc q =>
            match q.final_nn with
            | some sq => triggerUpsert acc q.player_id sess.universe_level sq sid
            | none => acc) st1.progress_journal := by
    rw [applySessionUpdate_journal_fires st1 sid
      (fun s => { s with status := SessionStatus.completed, ended := true })
      sess hsess1 (fun s => rfl) (fun s => rfl) ⟨rfl, hnc⟩, ← hap]
  have hfind : findSession (applySessionUpdate st1 sid (fun s =>
      { s with status := SessionStatus.completed, ended := true })) sid
      = some { sess with status := SessionStatus.completed, ended := true } := by
    rw [findSession_applySessionUpdate st1 sid
      (fun s => { s with status := SessionStatus.completed, ended := true })
      (fun s => rfl) (by rw [hsess1]; rfl), hsess1]
    rfl
  unfold submitCompletionStep
  dsimp only
  rw [hfind]
  dsimp only
  rw [if_neg (by simp)]
  split
  · split
    · next heq =>
      unfold bestNn
      dsimp only
      rw [hjq]
      exact completion_fold_bestNn ap st1.progress_journal sess.universe_level sid
        sp s hdis hmem hs
    · next st4 newSess heq =>
      obtain ⟨h4, _⟩ := insertSession_ok_inv _ _ _ _ _ _ heq
      unfold bestNn
      dsimp only
      rw [h4]
      dsimp only
      rw [hjq]
      exact completion_fold_bestNn ap st1.progress_journal sess.universe_level sid
        sp s hdis hmem hs
  · unfold bestNn
    dsimp only
    rw [hjq]
    exact completion_fold_bestNn ap st1.progress_journal sess.universe_level sid
      sp s hdis hmem hs

/-- Claim C5: the ProgressJournal best score for any (player, level) pair
never decreases across any sequence of submit-score calls (hence across any
sequence of session completions), and on a completion the stored value for
each member becomes the greater of the existing best and the newly submitted
final score (the new score itself when no row existed). -/
theorem C5_best_score_monotone :
    (∀ (st : Store) (reqs : List SubmitBody) (pid lvl : Nat),
      bestLe (bestNn st pid lvl) (bestNn (applySubmitSeq st reqs) pid lvl)) ∧
    (∀ (st1 : Store) (sid : Nat) (sess : Session) (ap : List SessionPlayer)
        (cnt : Nat) (sp : SessionPlayer) (s : Int),
      findSession st1 sid = some sess →
      sess.status = SessionStatus.active →
      ap = sessionPlayersOf st1 sid →
      ap.Pairwise (fun a b => a.player_id ≠ b.player_id) →
      sp ∈ ap → sp.final_nn = some s →
      bestNn (submitCompletionStep st1 sid sess ap cnt).1 sp.player_id
          sess.universe_level
        = some (combineBest (bestNn st1 sp.player_id sess.universe_level) s)) := by
  constructor
  · intro st reqs pid lvl
    exact applySubmitSeq_journal_mono reqs st pid lvl
  · intro st1 sid sess ap cnt sp s h1 h2 h3 h4 h5 h6
    refine submitCompletionStep_bestNn st1 sid sess ap cnt h1 ?_ h3 h4 sp s h5 h6
    rw [h2]
    intro hc
    cases hc

/-- Witness for C5 at a concrete completion: member 1 already holds best 10
at level 5 and completes with final score 7, so the stored best stays
max(10, 7) = 10. -/
theorem C5_best_score_monotone_witness :
    (findSession ⟨[⟨1, "a", false⟩, ⟨2, "b", false⟩], ["BX"],
        [⟨10, "BX", 5, SessionStatus.active, 1, false⟩],
        [⟨10, 1, some "gray", 0, some 7, false⟩, ⟨10, 2, some "pink", 0, some 50, false⟩],
        [⟨1, 5, 10, none⟩], 20⟩ 10 =
      some ⟨10, "BX", 5, SessionStatus.active, 1, false⟩) ∧
    bestNn (submitCompletionStep ⟨[⟨1, "a", false⟩, ⟨2, "b", false⟩], ["BX"],
        [⟨10, "BX", 5, SessionStatus.active, 1, false⟩],
        [⟨10, 1, some "gray", 0, some 7, false⟩, ⟨10, 2, some "pink", 0, some 50, false⟩],
        [⟨1, 5, 10, none⟩], 20⟩ 10 ⟨10, "BX", 5, SessionStatus.active, 1, false⟩
        [⟨10, 1, some "gray", 0, some 7, false⟩, ⟨10, 2, some "pink", 0, some 50, false⟩]
        2).1 1 5
      = some (combineBest (bestNn ⟨[⟨1, "a", false⟩, ⟨2, "b", false⟩], ["BX"],
        [⟨10, "BX", 5, SessionStatus.active, 1, false⟩],
        [⟨10, 1, some "gray", 0, some 7, false⟩, ⟨10, 2, some "pink", 0, some 50, false⟩],
        [⟨1, 5, 10, none⟩], 20⟩ 1 5) 7) := by
  refine ⟨by decide, ?_⟩
  exact C5_best_score_monotone.2
    ⟨[⟨1, "a", false⟩, ⟨2, "b", false⟩], ["BX"],
      [⟨10, "BX", 5, SessionStatus.active, 1, false⟩],
      [⟨10, 1, some "gray", 0, some 7, false⟩, ⟨10, 2, some "pink", 0, some 50, false⟩],
      [⟨1, 5, 10, none⟩], 20⟩ 10 ⟨10, "BX", 5, SessionStatus.active, 1, false⟩
    [⟨10, 1, some "gray", 0, some 7, false⟩, ⟨10, 2, some "pink", 0, some 50, false⟩]
    2 ⟨10, 1, some "gray", 0, some 7, false⟩ 7
    (by decide) rfl (by decide) (by decide) (by decide) rfl

theorem submitMark_final (b : SubmitBody) (fnn : Int) (sid pid : Nat)
    (q : SessionPlayer) :
    (submitMark b fnn sid pid q).final_nn =
      if q.session_id == sid && q.player_id == pid then some fnn
      else q.final_nn := by
  unfold submitMark submitRowUpdate
  split
  · dsimp only
    split <;> (try split) <;> rfl
  · rfl

theorem submitMark_race_of_color_none (b : SubmitBody) (fnn : Int)
    (sid pid : Nat) (q : SessionPlayer) (hc : b.color = none) :
    (submitMark b fnn sid pid q).race = q.race := by
  unfold submitMark submitRowUpdate
  rw [hc]
  split
  · dsimp only
    split <;> rfl
  · rfl

/-- Full characterisation of the completion transition on a store whose
session exists, is active, has members with distinct players, satisfies the
unique-active-session-per-box constraint, and uses fresh ids: the session
row completes, and the next-level session is created exactly once with all
member rows copied (scores unset), or not at all at the terminal level. -/
theorem submitCompletionStep_spec (st1 : Store) (sid : Nat) (sess : Session)
    (cnt : Nat)
    (hsess1 : findSession st1 sid = some sess)
    (huniq : ∀ s' ∈ st1.sessions, s'.status = SessionStatus.active →
      s'.box_id = sess.box_id → s' = sess)
    (hfreshS : ∀ s' ∈ st1.sessions, s'.id < st1.next_id)
    (hfreshP : ∀ q ∈ st1.session_players, q.session_id < st1.next_id) :
    (findSession (submitCompletionStep st1 sid sess (sessionPlayersOf st1 sid) cnt).1 sid
      = some { sess with status := SessionStatus.completed, ended := true }) ∧
    (sess.universe_level + 1 ≤ 13 →
      (submitCompletionStep st1 sid sess (sessionPlayersOf st1 sid) cnt).2
        = SubmitOut.ok ⟨true, cnt, (sessionPlayersOf st1 sid).length, true,
            some (st1.next_id, sess.universe_level + 1)⟩ ∧
      findSession (submitCompletionStep st1 sid sess (sessionPlayersOf st1 sid) cnt).1
          st1.next_id
        = some ⟨st1.next_id, sess.box_id, sess.universe_level + 1,
            SessionStatus.active, sess.host_player_id, false⟩ ∧
      sessionPlayersOf (submitCompletionStep st1 sid sess (sessionPlayersOf st1 sid) cnt).1
          st1.next_id
        = (sessionPlayersOf st1 sid).map
            (fun q => ⟨st1.next_id, q.player_id, q.race, 0, none, false⟩) ∧
      ((submitCompletionStep st1 sid sess (sessionPlayersOf st1 sid) cnt).1.sessions.filter
        (fun s' => s'.box_id == sess.box_id &&
          s'.universe_level == sess.universe_level + 1 &&
          s'.status == SessionStatus.active)).length = 1) ∧
    (¬ sess.universe_level + 1 ≤ 13 →
      (submitCompletionStep st1 sid sess (sessionPlayersOf st1 sid) cnt).2
        = SubmitOut.ok ⟨true, cnt, (sessionPlayersOf st1 sid).length, true, none⟩ ∧
      (submitCompletionStep st1 sid sess (sessionPlayersOf st1 sid) cnt).1.sessions
        = st1.sessions.map (fun s' => if s'.id == sid then
            { s' with status := SessionStatus.completed, ended := true } else s')) := by
  have hsid_eq : sess.id = sid := by
    have h' : st1.sessions.find? (fun s => s.id == sid) = some sess := hsess1
    have hb : (sess.id == sid) = true := by simpa using List.find?_some h'
    exact eq_of_beq hb
  have hfind : findSession (applySessionUpdate st1 sid (fun s =>
      { s with status := SessionStatus.completed, ended := true })) sid
      = some { sess with status := SessionStatus.completed, ended := true } := by
    rw [findSession_applySessionUpdate st1 sid
      (fun s => { s with status := SessionStatus.completed, ended := true })
      (fun s => rfl) (by rw [hsess1]; rfl), hsess1]
    rfl
  have hsess2 : (applySessionUpdate st1 sid (fun s =>
      { s with status := SessionStatus.completed, ended := true })).sessions
      = st1.sessions.map (fun s' => if s'.id == sid then
          { s' with status := SessionStatus.completed, ended := true } else s') :=
    applySessionUpdate_sessions st1 sid _ (by rw [hsess1]; rfl)
  have hsp2 : (applySessionUpdate st1 sid (fun s =>
      { s with status := SessionStatus.completed, ended := true })).session_players
      = st1.session_players :=
    applySessionUpdate_session_players st1 sid _
  have hnid2 : (applySessionUpdate st1 sid (fun s =>
      { s with status := SessionStatus.completed, ended := true })).next_id
      = st1.next_id :=
    applySessionUpdate_next_id st1 sid _
  have hmapped_none : ∀ s' ∈ st1.sessions.map (fun s' => if s'.id == sid then
      { s' with status := SessionStatus.completed, ended := true } else s'),
      ¬ (s'.box_id == sess.box_id && s'.status == SessionStatus.active) = true := by
    intro s' hs'
    obtain ⟨s0, hs0, hmap⟩ := List.mem_map.mp hs'
    by_cases hid0 : (s0.id == sid) = true
    · rw [← hmap, if_pos hid0]
      intro hpred
      have := ((Bool.and_eq_true _ _).mp hpred).2
      simp at this
    · rw [← hmap, if_neg hid0]
      intro hpred
      have hbox : s0.box_id = sess.box_id :=
        eq_of_beq ((Bool.and_eq_true _ _).mp hpred).1
      have hst : s0.status = SessionStatus.active := by
        have := ((Bool.and_eq_true _ _).mp hpred).2
        simpa using this
      have : s0 = sess := huniq s0 hs0 hst hbox
      rw [this, hsid_eq] at hid0
      simp at hid0
  unfold submitCompletionStep
  dsimp only
  set st2 := applySessionUpdate st1 sid (fun s =>
    { s with status := SessionStatus.completed, ended := true }) with hst2def
  rw [hfind]
  dsimp only
  rw [if_neg (by simp)]
  set j3 := (sessionPlayersOf st1 sid).foldl (jsJournalStep sess.universe_level)
    st2.progress_journal with hj3def
  by_cases hlvl : sess.universe_level + 1 ≤ 13
  · rw [if_pos hlvl]
    have hanyc : (({ st2 with progress_journal := j3 } : Store).sessions.any
        (fun s' => s'.box_id == sess.box_id && s'.status == SessionStatus.active))
        = false := by
      have : st2.sessions.any
          (fun s' => s'.box_id == sess.box_id && s'.status == SessionStatus.active)
          = false := by
        rw [List.any_eq_false, hsess2]
        exact hmapped_none
      exact this
    have hins : insertSession { st2 with progress_journal := j3 } sess.box_id
        (sess.universe_level + 1) sess.host_player_id
        = Except.ok ({ st2 with
            progress_journal := j3
            sessions := (st2.sessions ++ [(⟨st2.next_id, sess.box_id, sess.universe_level + 1, SessionStatus.active, sess.host_player_id, false⟩ : Session)])
            next_id := st2.next_id + 1 },
          ⟨st2.next_id, sess.box_id, sess.universe_level + 1,
            SessionStatus.active, sess.host_player_id, false⟩) := by
      unfold insertSession
      rw [if_neg (by simp [hanyc])]
    rw [hins]
    dsimp only
    rw [hnid2]
    refine ⟨?_, fun _ => ⟨rfl, ?_, ?_, ?_⟩, fun hc => absurd hlvl hc⟩
    · have ha : (st2.sessions ++
          [(⟨st1.next_id, sess.box_id, sess.universe_level + 1,
            SessionStatus.active, sess.host_player_id, false⟩ : Session)]).find?
          (fun s => s.id == sid)
          = some { sess with status := SessionStatus.completed, ended := true } := by
        rw [List.find?_append]
        have hf2 : st2.sessions.find? (fun s => s.id == sid)
            = some { sess with status := SessionStatus.completed, ended := true } := hfind
        rw [hf2]
        rfl
      exact ha
    · have hnone : st2.sessions.find? (fun s => s.id == st1.next_id) = none := by
        rw [List.find?_eq_none]
        intro s' hs'
        rw [hsess2] at hs'
        obtain ⟨s0, hs0, hmap⟩ := List.mem_map.mp hs'
        have hlt : s0.id < st1.next_id := hfreshS s0 hs0
        have hids : s'.id = s0.id := by
          rw [← hmap]
          split <;> rfl
        simp only [beq_iff_eq, hids]
        omega
      have ha : (st2.sessions ++
          [(⟨st1.next_id, sess.box_id, sess.universe_level + 1,
            SessionStatus.active, sess.host_player_id, false⟩ : Session)]).find?
          (fun s => s.id == st1.next_id)
          = some ⟨st1.next_id, sess.box_id, sess.universe_level + 1,
            SessionStatus.active, sess.host_player_id, false⟩ := by
        rw [List.find?_append, hnone]
        simp [List.find?_cons]
      exact ha
    · have ha : (st2.session_players ++
          ((sessionPlayersOf st1 sid).map
            (fun p => (⟨st1.next_id, p.player_id, p.race, 0, none, false⟩ : SessionPlayer)))).filter
          (fun sp => sp.session_id == st1.next_id)
          = (sessionPlayersOf st1 sid).map
            (fun p => (⟨st1.next_id, p.player_id, p.race, 0, none, false⟩ : SessionPlayer)) := by
        rw [List.filter_append]
        have h1 : st2.session_players.filter (fun sp => sp.session_id == st1.next_id)
            = [] := by
          rw [List.filter_eq_nil_iff]
          intro q hq
          rw [hsp2] at hq
          have := hfreshP q hq
          simp only [beq_iff_eq]
          omega
        have h2 : ((sessionPlayersOf st1 sid).map
            (fun p => (⟨st1.next_id, p.player_id, p.race, 0, none, false⟩ : SessionPlayer))).filter
            (fun sp => sp.session_id == st1.next_id)
            = (sessionPlayersOf st1 sid).map
            (fun p => (⟨st1.next_id, p.player_id, p.race, 0, none, false⟩ : SessionPlayer)) := by
          rw [List.filter_eq_self]
          intro q hq
          obtain ⟨p, _, hmapq⟩ := List.mem_map.mp hq
          rw [← hmapq]
          simp
        rw [h1, h2, List.nil_append]
      exact ha
    · have ha : ((st2.sessions ++
          [(⟨st1.next_id, sess.box_id, sess.universe_level + 1,
            SessionStatus.active, sess.host_player_id, false⟩ : Session)]).filter
          (fun s' => s'.box_id == sess.box_id &&
            s'.universe_level == sess.universe_level + 1 &&
            s'.status == SessionStatus.active)).length = 1 := by
        rw [List.filter_append, hsess2]
        have h1 : (st1.sessions.map (fun s' => if s'.id == sid then
            { s' with status := SessionStatus.completed, ended := true } else s')).filter
            (fun s' => s'.box_id == sess.box_id &&
              s'.universe_level == sess.universe_level + 1 &&
              s'.status == SessionStatus.active) = [] := by
          rw [List.filter_eq_nil_iff]
          intro s' hs'
          intro hpred
          apply hmapped_none s' hs'
          have hand := (Bool.and_eq_true _ _).mp hpred
          have hand2 := (Bool.and_eq_true _ _).mp hand.1
          rw [Bool.and_eq_true]
          exact ⟨hand2.1, hand.2⟩
        rw [h1, List.nil_append]
        simp [List.filter_cons]
      exact ha
  · rw [if_neg hlvl]
    exact ⟨hfind, fun hc => absurd hc hlvl, fun _ => ⟨rfl, hsess2⟩⟩

/-- Claim C2: on an active session where exactly one member (the caller)
still has a null final score, a valid submitScore by that member completes
the session exactly once, upserts the ProgressJournal for every member
(best := max of existing and submitted), and, when the session level is
below 13, creates exactly one next-level active session for the same box
and host containing all members with their colors preserved (exactly as
stored after the caller's own update; unchanged when no color was sent) and
final scores unset; at level 13 no next session is created and the response
carries nextSession = none. -/
theorem C2_submit_completion (st : Store) (b : SubmitBody) (sid pid : Nat)
    (fnn : Int) (sess : Session) (spc : SessionPlayer)
    (hsid : b.sessionId = some sid) (hpid : b.playerId = some pid)
    (hfnn : b.finalNn = some fnn) (hcol : colorCheckFails b.color = false)
    (hsess : findSession st sid = some sess)
    (hact : sess.status = SessionStatus.active)
    (hmem : findSessionPlayer st sid pid = some spc)
    (hcnull : spc.final_nn = none)
    (hothers : ∀ q ∈ sessionPlayersOf st sid, q.player_id ≠ pid → q.final_nn ≠ none)
    (hdis : (sessionPlayersOf st sid).Pairwise (fun a b => a.player_id ≠ b.player_id))
    (huniq : ∀ s' ∈ st.sessions, s'.status = SessionStatus.active →
      s'.box_id = sess.box_id → s' = sess)
    (hfreshS : ∀ s' ∈ st.sessions, s'.id < st.next_id)
    (hfreshP : ∀ q ∈ st.session_players, q.session_id < st.next_id) :
    findSession (submitScoreHandler st b).1 sid
        = some { sess with status := SessionStatus.completed, ended := true } ∧
    (∀ q ∈ sessionPlayersOf st sid, ∀ s : Int,
      (if q.player_id = pid then some fnn else q.final_nn) = some s →
      bestNn (submitScoreHandler st b).1 q.player_id sess.universe_level
        = some (combineBest (bestNn st q.player_id sess.universe_level) s)) ∧
    (sess.universe_level + 1 ≤ 13 →
      (submitScoreHandler st b).2 = SubmitOut.ok ⟨true,
          (sessionPlayersOf st sid).length, (sessionPlayersOf st sid).length, true,
          some (st.next_id, sess.universe_level + 1)⟩ ∧
      findSession (submitScoreHandler st b).1 st.next_id
        = some ⟨st.next_id, sess.box_id, sess.universe_level + 1,
            SessionStatus.active, sess.host_player_id, false⟩ ∧
      sessionPlayersOf (submitScoreHandler st b).1 st.next_id
        = (sessionPlayersOf st sid).map (fun q =>
            ⟨st.next_id, q.player_id, (submitMark b fnn sid pid q).race, 0, none, false⟩) ∧
      (b.color = none → sessionPlayersOf (submitScoreHandler st b).1 st.next_id
        = (sessionPlayersOf st sid).map (fun q =>
            ⟨st.next_id, q.player_id, q.race, 0, none, false⟩)) ∧
      ((submitScoreHandler st b).1.sessions.filter
        (fun s' => s'.box_id == sess.box_id &&
          s'.universe_level == sess.universe_level + 1 &&
          s'.status == SessionStatus.active)).length = 1) ∧
    (¬ sess.universe_level + 1 ≤ 13 →
      (submitScoreHandler st b).2 = SubmitOut.ok ⟨true,
          (sessionPlayersOf st sid).length, (sessionPlayersOf st sid).length,
          true, none⟩ ∧
      (submitScoreHandler st b).1.sessions = st.sessions.map (fun s' =>
        if s'.id == sid then { s' with status := SessionStatus.completed, ended := true }
        else s')) := by
  have hAP : sessionPlayersOf { st with session_players :=
        (st.session_players.map (submitMark b fnn sid pid)) } sid
      = (sessionPlayersOf st sid).map (submitMark b fnn sid pid) :=
    sessionPlayersOf_map_update st sid (submitMark b fnn sid pid)
      (submitMark_session_id b fnn sid pid)
  have hmemkey : ∀ q ∈ sessionPlayersOf st sid, (q.session_id == sid) = true := by
    intro q hq
    exact (List.mem_filter.mp hq).2
  have hall : ((sessionPlayersOf { st with session_players :=
        (st.session_players.map (submitMark b fnn sid pid)) } sid).all
      (fun p => p.final_nn.isSome)) = true := by
    rw [hAP, List.all_eq_true]
    intro p hp
    obtain ⟨q, hq, hmapq⟩ := List.mem_map.mp hp
    rw [← hmapq, submitMark_final, hmemkey q hq, Bool.true_and]
    by_cases hqp : q.player_id = pid
    · simp [hqp]
    · rw [if_neg (by simpa using hqp)]
      have := hothers q hq hqp
      cases hfq : q.final_nn with
      | none => exact absurd hfq this
      | some v => rfl
  have hspc_mem : spc ∈ sessionPlayersOf st sid := by
    obtain ⟨hm1, hm2⟩ := findSessionPlayer_mem st sid pid spc hmem
    exact List.mem_filter.mpr ⟨hm1, hm2⟩
  have hnotempty : ((sessionPlayersOf { st with session_players :=
        (st.session_players.map (submitMark b fnn sid pid)) } sid).isEmpty) = false := by
    rw [hAP]
    cases he : ((sessionPlayersOf st sid).map (submitMark b fnn sid pid)).isEmpty
    · rfl
    · rw [List.isEmpty_iff, List.map_eq_nil_iff] at he
      rw [he] at hspc_mem
      cases hspc_mem
  have hcond : (((sessionPlayersOf { st with session_players :=
        (st.session_players.map (submitMark b fnn sid pid)) } sid).all
      (fun p => p.final_nn.isSome)) &&
      !((sessionPlayersOf { st with session_players :=
        (st.session_players.map (submitMark b fnn sid pid)) } sid).isEmpty)) = true := by
    rw [hall, hnotempty]
    rfl
  have hred : submitScoreHandler st b = submitCompletionStep
      { st with session_players := (st.session_players.map (submitMark b fnn sid pid)) }
      sid sess
      (sessionPlayersOf { st with session_players :=
        (st.session_players.map (submitMark b fnn sid pid)) } sid)
      ((sessionPlayersOf { st with session_players :=
        (st.session_players.map (submitMark b fnn sid pid)) } sid).filter
        (fun p => p.final_nn.isSome)).length := by
    unfold submitScoreHandler
    simp only [hsid, hpid, hfnn, hcol, Bool.false_eq_true, if_false, hsess, hact,
      ne_eq, not_true_eq_false, hmem]
    rw [if_pos hcond]
  have hcnt : ((sessionPlayersOf { st with session_players :=
        (st.session_players.map (submitMark b fnn sid pid)) } sid).filter
      (fun p => p.final_nn.isSome)).length = (sessionPlayersOf st sid).length := by
    rw [List.filter_eq_self.mpr (List.all_eq_true.mp hall), hAP, List.length_map]
  have hlen : (sessionPlayersOf { st with session_players :=
        (st.session_players.map (submitMark b fnn sid pid)) } sid).length
      = (sessionPlayersOf st sid).length := by
    rw [hAP, List.length_map]
  have hdis' : (sessionPlayersOf { st with session_players :=
        (st.session_players.map (submitMark b fnn sid pid)) } sid).Pairwise
      (fun a b => a.player_id ≠ b.player_id) := by
    rw [hAP, List.pairwise_map]
    refine hdis.imp ?_
    intro a c hac
    rw [submitMark_player_id, submitMark_player_id]
    exact hac
  have hfreshP' : ∀ q ∈ ({ st with session_players :=
        (st.session_players.map (submitMark b fnn sid pid)) } : Store).session_players,
      q.session_id < ({ st with session_players :=
        (st.session_players.map (submitMark b fnn sid pid)) } : Store).next_id := by
    intro q hq
    obtain ⟨q0, hq0, hmapq⟩ := List.mem_map.mp hq
    rw [← hmapq, submitMark_session_id]
    exact hfreshP q0 hq0
  obtain ⟨hc1, hc2, hc3⟩ := submitCompletionStep_spec
    { st with session_players := (st.session_players.map (submitMark b fnn sid pid)) }
    sid sess
    ((sessionPlayersOf { st with session_players :=
      (st.session_players.map (submitMark b fnn sid pid)) } sid).filter
      (fun p => p.final_nn.isSome)).length
    hsess huniq hfreshS hfreshP'
  refine ⟨by rw [hred]; exact hc1, ?_, ?_, ?_⟩
  · intro q hq s hscore
    have hmem' : submitMark b fnn sid pid q ∈ sessionPlayersOf
        { st with session_players :=
          (st.session_players.map (submitMark b fnn sid pid)) } sid := by
      rw [hAP]
      exact List.mem_map.mpr ⟨q, hq, rfl⟩
    have hfinal : (submitMark b fnn sid pid q).final_nn = some s := by
      rw [submitMark_final, hmemkey q hq, Bool.true_and]
      by_cases hqp : q.player_id = pid
      · rw [if_pos (by simpa using hqp)]
        rw [if_pos hqp] at hscore
        exact hscore
      · rw [if_neg (by simpa using hqp)]
        rw [if_neg hqp] at hscore
        exact hscore
    have hbest := submitCompletionStep_bestNn
      { st with session_players := (st.session_players.map (submitMark b fnn sid pid)) }
      sid sess
      (sessionPlayersOf { st with session_players :=
        (st.session_players.map (submitMark b fnn sid pid)) } sid)
      ((sessionPlayersOf { st with session_players :=
        (st.session_players.map (submitMark b fnn sid pid)) } sid).filter
        (fun p => p.final_nn.isSome)).length
      hsess (by rw [hact]; intro hcon; cases hcon) rfl hdis'
      (submitMark b fnn sid pid q) s hmem' hfinal
    rw [submitMark_player_id] at hbest
    rw [hred]
    exact hbest
  · intro hlvl
    obtain ⟨hr1, hr2, hr3, hr4⟩ := hc2 hlvl
    rw [hcnt] at hr1
    refine ⟨by rw [hred, hcnt]; rw [hlen] at hr1; exact hr1,
      by rw [hred]; exact hr2, ?_, ?_, by rw [hred]; exact hr4⟩
    · rw [hred, hr3, hAP, List.map_map]
      apply List.map_congr_left
      intro q hq
      simp only [Function.comp]
      rw [submitMark_player_id]
    · intro hcnone
      rw [hred, hr3, hAP, List.map_map]
      apply List.map_congr_left
      intro q hq
      simp only [Function.comp]
      rw [submitMark_player_id, submitMark_race_of_color_none b fnn sid pid q hcnone]
  · intro hlvl
    obtain ⟨hr1, hr2⟩ := hc3 hlvl
    rw [hcnt] at hr1
    exact ⟨by rw [hred, hcnt]; rw [hlen] at hr1; exact hr1,
      by rw [hred]; exact hr2⟩

/-- Witness for C2: member 1 submits the last missing score (7) on a
two-member level-5 session; the session row completes. -/
theorem C2_submit_completion_witness :
    findSession (submitScoreHandler
      ⟨[⟨1, "a", false⟩, ⟨2, "b", false⟩], ["BX"],
        [⟨10, "BX", 5, SessionStatus.active, 1, false⟩],
        [⟨10, 1, some "gray", 0, none, false⟩, ⟨10, 2, some "pink", 0, some 50, true⟩],
        [], 20⟩
      ⟨some 10, some 1, some 7, none, none⟩).1 10
      = some ⟨10, "BX", 5, SessionStatus.completed, 1, true⟩ :=
  (C2_submit_completion
    ⟨[⟨1, "a", false⟩, ⟨2, "b", false⟩], ["BX"],
      [⟨10, "BX", 5, SessionStatus.active, 1, false⟩],
      [⟨10, 1, some "gray", 0, none, false⟩, ⟨10, 2, some "pink", 0, some 50, true⟩],
      [], 20⟩
    ⟨some 10, some 1, some 7, none, none⟩ 10 1 7
    ⟨10, "BX", 5, SessionStatus.active, 1, false⟩
    ⟨10, 1, some "gray", 0, none, false⟩
    rfl rfl rfl (by decide) (by decide) rfl (by decide) rfl (by decide)
    (by decide) (by decide) (by decide) (by decide)).1

/-- Witness for C6: a registered box with an active session; the create call
returns 409 and the store is unchanged. -/
theorem C6_create_conflict_unchanged_witness :
    boxFkInv ⟨[], ["BX"], [⟨10, "BX", 5, SessionStatus.active, 1, false⟩], [], [], 20⟩ ∧
    createHandler ⟨[], ["BX"], [⟨10, "BX", 5, SessionStatus.active, 1, false⟩], [], [], 20⟩
        ⟨some "BX", some 3, some "cy", none, none⟩ =
      (⟨[], ["BX"], [⟨10, "BX", 5, SessionStatus.active, 1, false⟩], [], [], 20⟩,
        CreateOut.err 409 "Box already has an active session") ∧
    (createHandler ⟨[], ["BX"], [⟨10, "BX", 5, SessionStatus.active, 1, false⟩], [], [], 20⟩
        ⟨some "BX", some 3, some "cy", none, none⟩).1 =
      ⟨[], ["BX"], [⟨10, "BX", 5, SessionStatus.active, 1, false⟩], [], [], 20⟩ :=
  ⟨by unfold boxFkInv; decide, by decide,
    C6_create_conflict_unchanged
      ⟨[], ["BX"], [⟨10, "BX", 5, SessionStatus.active, 1, false⟩], [], [], 20⟩
      ⟨some "BX", some 3, some "cy", none, none⟩
      (createHandler ⟨[], ["BX"], [⟨10, "BX", 5, SessionStatus.active, 1, false⟩], [], [], 20⟩
        ⟨some "BX", some 3, some "cy", none, none⟩).1
      "Box already has an active session" (by unfold boxFkInv; decide) (by decide)⟩

/-- Claim C4: for every player present in the store, the max-unlocked-level
function returns 1 when the player is a guest or has no ProgressJournal
entries, and otherwise min(13, 1 + the highest level in the journal). -/
theorem C4_max_unlocked_level (st : Store) (pid : Nat) (p : Player)
    (hfind : findPlayer st pid = some p) :
    getPlayerMaxLevel st pid =
      if p.is_guest = true ∨ journalLevels st pid = [] then 1
      else Nat.min 13 (1 + listMax (journalLevels st pid)) := by
  unfold getPlayerMaxLevel getPlayerMaxLevelCore playerQuery
  rw [hfind]
  by_cases hg : p.is_guest = true
  · simp [hg]
  · have hg' : p.is_guest = false := by
      revert hg; cases p.is_guest <;> simp
    by_cases hj : journalLevels st pid = []
    · simp [hg', hj]
    · simp [hg', hj, List.isEmpty_iff, Nat.min_comm, Nat.add_comm]

/-- Witness for C4 at a concrete store: one non-guest player with journal
entries at levels 3 and 5, whose max unlocked level is 6. -/
theorem C4_max_unlocked_level_witness :
    findPlayer ⟨[⟨7, "ava", false⟩], [], [], [],
        [⟨7, 3, 10, none⟩, ⟨7, 5, 20, none⟩], 8⟩ 7 = some ⟨7, "ava", false⟩ ∧
    getPlayerMaxLevel ⟨[⟨7, "ava", false⟩], [], [], [],
        [⟨7, 3, 10, none⟩, ⟨7, 5, 20, none⟩], 8⟩ 7 = 6 := by
  refine ⟨by decide, ?_⟩
  have h := C4_max_unlocked_level
    ⟨[⟨7, "ava", false⟩], [], [], [], [⟨7, 3, 10, none⟩, ⟨7, 5, 20, none⟩], 8⟩
    7 ⟨7, "ava", false⟩ (by decide)
  rw [h]
  decide

end Neutronium
